import Mathlib

/-!
Shallow embedding of the bulk-order pricing and settlement engine of the
`tutedude-buildathon-2` backend (FastAPI + SQLAlchemy), covering:

* `calculate_price_for_quantity` (backend/routers/orders/orders.py, tiered pricing),
* `create_order` (order admission: balance checks, debits, bulk-window join),
* `pay_pending_order` (settling a buy-now-pay-later order),
* `process_bulk_windows` (the bulk-window sweep / settlement engine),
* `verify_payment` (payment reconciliation and ledger credit).

Machine conventions: SQLAlchemy rows become Lean structures; the database
session becomes an explicit `DB` state record; Python floats for money become
`ℚ`; UUID keys become `Nat`; timestamps become `Nat` (seconds); Python string
enums become Lean inductives.  `scalar_one_or_none` lookups become `List.find?`
and in-place ORM mutation of the found row becomes `updateFirst` (update the
first matching element), which agrees with the source under the schema's
uniqueness constraints.  Raised `HTTPException`s become explicit error results.
-/

namespace Buildathon

/-- Python string enum for `Order.order_type`. -/
inductive OrderType
  | buy_now
  | buy_now_pay_later
  | bulk_order
deriving DecidableEq, Repr

/-- Python string enum for `Order.payment_status`. -/
inductive PaymentStatus
  | pending
  | paid
  | failed
  | refunded
deriving DecidableEq, Repr

/-- Python string enum for `BulkOrderWindow.status`. -/
inductive WindowStatus
  | open
  | closed
  | finalized
deriving DecidableEq, Repr

/-- Python string enum for `Payment.status`. -/
inductive PayStatus
  | pending
  | completed
  | failed
  | refunded
deriving DecidableEq, Repr

/-- `current_user["role"]`, as granted by the auth collaborator. -/
inductive Role
  | vendor
  | supplier
  | other
deriving DecidableEq, Repr

/-- Row of `bulk_pricing_tiers` (models.py `BulkPricingTier`). -/
structure BulkPricingTier where
  product_id : Nat
  min_quantity : Nat
  max_quantity : Option Nat
  price_per_unit : ℚ
deriving DecidableEq, Repr

/-- Row of `user_profiles`, reduced to the keys the order/payment flows read. -/
structure UserProfile where
  id : Nat
  user_id : String
deriving DecidableEq, Repr

/-- Row of `vendor_profiles` (balance, activity and rating fields used here). -/
structure VendorProfile where
  user_profile_id : Nat
  balance : ℚ
  is_active : Bool
  average_rating : ℚ
deriving DecidableEq, Repr

/-- Row of `supplier_profiles` (balance field used by payment credit). -/
structure SupplierProfile where
  user_profile_id : Nat
  balance : ℚ
deriving DecidableEq, Repr

/-- Row of `products` (fields read by order admission and settlement). -/
structure Product where
  id : Nat
  supplier_profile_id : Nat
  is_active : Bool
  minimum_order_quantity : Nat
deriving DecidableEq, Repr

/-- Row of `orders` (fields read or written by the flows modelled here). -/
structure Order where
  id : Nat
  buyer_id : Nat
  seller_id : Nat
  product_id : Nat
  quantity : Nat
  price_per_unit : ℚ
  total_amount : ℚ
  order_type : OrderType
  payment_status : PaymentStatus
  due_date : Option Nat
  bulk_order_window_id : Option Nat
deriving DecidableEq, Repr

/-- Row of `bulk_order_windows`. -/
structure BulkOrderWindow where
  id : Nat
  creator_id : Nat
  window_end_time : Nat
  status : WindowStatus
  total_participants : Nat
  total_amount : ℚ
deriving DecidableEq, Repr

/-- Row of `payments`. -/
structure Payment where
  id : Nat
  user_id : Nat
  amount : ℚ
  razorpay_order_id : String
  razorpay_payment_id : Option String
  razorpay_signature : Option String
  status : PayStatus
deriving DecidableEq, Repr

/-- The relational store reachable from the order/payment routers. -/
structure DB where
  user_profiles : List UserProfile
  vendors : List VendorProfile
  suppliers : List SupplierProfile
  products : List Product
  tiers : List BulkPricingTier
  orders : List Order
  windows : List BulkOrderWindow
  payments : List Payment
deriving DecidableEq, Repr

/-- In-place ORM mutation of the first row matching a predicate (the row
`scalar_one_or_none` / `find?` returns). -/
def updateFirst (p : α → Bool) (f : α → α) : List α → List α
  | [] => []
  | x :: xs => if p x then f x :: xs else x :: updateFirst p f xs

/-! ## Pricing tier resolver (`calculate_price_for_quantity`) -/

/-- Stable insertion of a tier into a `min_quantity`-sorted list, keeping
later-inserted tiers after equal keys; folding it left over the input list
reproduces Python's stable `sorted(..., key=lambda x: x.min_quantity)`. -/
def insertTier (t : BulkPricingTier) : List BulkPricingTier → List BulkPricingTier
  | [] => [t]
  | u :: rest =>
    if t.min_quantity < u.min_quantity then t :: u :: rest
    else u :: insertTier t rest

/-- Python `sorted(bulk_pricing_tiers, key=lambda x: x.min_quantity)`. -/
def sortTiers (ts : List BulkPricingTier) : List BulkPricingTier :=
  ts.foldl (fun acc t => insertTier t acc) []

/-- The tier-walking loop of `calculate_price_for_quantity`: walks tiers in
order with the `applicable_tier` accumulator; `break`s at the first tier whose
`min_quantity` exceeds `quantity`, `continue`s past tiers whose upper bound is
exceeded, and records any strictly applicable tier. -/
def findApplicableTier (quantity : Nat) :
    List BulkPricingTier → Option BulkPricingTier → Option BulkPricingTier
  | [], acc => acc
  | t :: rest, acc =>
    if t.min_quantity ≤ quantity then
      match t.max_quantity with
      | none => findApplicableTier quantity rest (some t)
      | some m =>
        if quantity ≤ m then findApplicableTier quantity rest (some t)
        else findApplicableTier quantity rest acc
    else acc

/-- `calculate_price_for_quantity(bulk_pricing_tiers, quantity)`
(orders.py lines 31-57).  `none` models the raised
`HTTPException` ("No pricing information available") on an empty tier list;
otherwise the strictly applicable tier's price is returned, with
`sorted_tiers[0]` as the fallback when no tier is applicable. -/
def calculate_price_for_quantity (bulk_pricing_tiers : List BulkPricingTier)
    (quantity : Nat) : Option ℚ :=
  match sortTiers bulk_pricing_tiers with
  | [] => none
  | first :: rest =>
    match findApplicableTier quantity (first :: rest) none with
    | some t => some t.price_per_unit
    | none => some first.price_per_unit

/-! ## Order admission (`create_order`) -/

/-- Request body `OrderCreate` (orders/schemas.py). -/
structure OrderCreate where
  product_id : Nat
  quantity : Nat
  order_type : OrderType
  bulk_order_window_id : Option Nat
deriving DecidableEq, Repr

/-- The distinct `HTTPException`s `create_order` can raise. -/
inductive CreateOrderError
  | buyerNotFound
  | notVendor
  | suspended
  | productNotFound
  | productInactive
  | belowMinimumQuantity
  | noPricing
  | notEligiblePayLater
  | insufficientBalance
  | windowNotFound
  | windowNotOpen
  | windowExpired
deriving DecidableEq, Repr

/-- `due_date = datetime.utcnow() + timedelta(days=5)`, in seconds. -/
def payLaterDueSeconds : Nat := 5 * 86400

/-- Order construction and commit tail of `create_order` (orders.py lines
186-216): builds the `Order` row, sets the pay-later due date, debits the
vendor balance and marks `paid` for `buy_now`, and appends the order. -/
def finishOrder (db : DB) (buyer_profile : UserProfile) (product : Product)
    (price_per_unit total_amount : ℚ) (quantity : Nat) (effType : OrderType)
    (windowId : Option Nat) (now freshOrderId : Nat) : DB × Order :=
  let order0 : Order :=
    { id := freshOrderId
      buyer_id := buyer_profile.id
      seller_id := product.supplier_profile_id
      product_id := product.id
      quantity := quantity
      price_per_unit := price_per_unit
      total_amount := total_amount
      order_type := effType
      payment_status := .pending
      due_date := if effType = .buy_now_pay_later then some (now + payLaterDueSeconds) else none
      bulk_order_window_id := windowId }
  let order := if effType = .buy_now then { order0 with payment_status := .paid } else order0
  let db1 :=
    if effType = .buy_now then
      let vs := updateFirst (fun v => v.user_profile_id == buyer_profile.id)
        (fun v => { v with balance := v.balance - total_amount }) db.vendors
      { db with vendors := vs }
    else db
  ({ db1 with orders := db1.orders ++ [order] }, order)

/-- `create_order` (orders.py lines 65-231).  On any raised `HTTPException`
the session is discarded without commit, so errors leave the store unchanged. -/
def create_order (db : DB) (current_user_id : String) (order_data : OrderCreate)
    (now : Nat) (freshOrderId : Nat) : Except CreateOrderError (DB × Order) :=
  match db.user_profiles.find? (fun u => u.user_id == current_user_id) with
  | none => .error .buyerNotFound
  | some buyer_profile =>
  match db.vendors.find? (fun v => v.user_profile_id == buyer_profile.id) with
  | none => .error .notVendor
  | some vendor_profile =>
  if ¬vendor_profile.is_active then .error .suspended
  else match db.products.find? (fun p => p.id == order_data.product_id) with
  | none => .error .productNotFound
  | some product =>
  if ¬product.is_active then .error .productInactive
  else if order_data.quantity < product.minimum_order_quantity then .error .belowMinimumQuantity
  else
    let bulk_pricing_tiers := db.tiers.filter (fun t => t.product_id == product.id)
    match calculate_price_for_quantity bulk_pricing_tiers order_data.quantity with
    | none => .error .noPricing
    | some price_per_unit =>
    let total_amount := price_per_unit * (order_data.quantity : ℚ)
    if order_data.order_type = .buy_now_pay_later ∧ vendor_profile.average_rating < (9/2 : ℚ)
    then .error .notEligiblePayLater
    else if order_data.order_type = .buy_now ∧ vendor_profile.balance < total_amount
    then .error .insufficientBalance
    else
      match order_data.bulk_order_window_id with
      | some wid =>
        match db.windows.find? (fun w => w.id == wid) with
        | none => .error .windowNotFound
        | some bulk_window =>
          if bulk_window.status ≠ .open then .error .windowNotOpen
          else if bulk_window.window_end_time < now then .error .windowExpired
          else .ok (finishOrder db buyer_profile product price_per_unit total_amount
                      order_data.quantity .bulk_order (some wid) now freshOrderId)
      | none =>
        .ok (finishOrder db buyer_profile product price_per_unit total_amount
              order_data.quantity order_data.order_type none now freshOrderId)

/-! ## Paying a pending pay-later order (`pay_pending_order`) -/

/-- The distinct `HTTPException`s `pay_pending_order` can raise. -/
inductive PayPendingError
  | userNotFound
  | notVendor
  | orderNotFound
  | notPending
  | notPayLater
  | overdue
  | insufficientBalance
deriving DecidableEq, Repr

/-- `pay_pending_order` (orders.py lines 398-494).  On success returns the
updated store and the remaining balance; errors leave the store unchanged. -/
def pay_pending_order (db : DB) (current_user_id : String) (order_id : Nat)
    (now : Nat) : Except PayPendingError (DB × ℚ) :=
  match db.user_profiles.find? (fun u => u.user_id == current_user_id) with
  | none => .error .userNotFound
  | some user_profile =>
  match db.vendors.find? (fun v => v.user_profile_id == user_profile.id) with
  | none => .error .notVendor
  | some vendor_profile =>
  match db.orders.find? (fun o => o.id == order_id && o.buyer_id == user_profile.id) with
  | none => .error .orderNotFound
  | some order =>
  if order.payment_status ≠ .pending then .error .notPending
  else if order.order_type ≠ .buy_now_pay_later then .error .notPayLater
  else if order.due_date.any (fun d => decide (d < now)) then .error .overdue
  else if vendor_profile.balance < order.total_amount then .error .insufficientBalance
  else
    let vs := updateFirst (fun v => v.user_profile_id == user_profile.id)
      (fun v => { v with balance := v.balance - order.total_amount }) db.vendors
    let os := updateFirst (fun o => o.id == order_id && o.buyer_id == user_profile.id)
      (fun o => { o with payment_status := .paid }) db.orders
    .ok ({ db with vendors := vs, orders := os }, vendor_profile.balance - order.total_amount)

/-! ## Bulk-window sweep (`process_bulk_windows`) -/

/-- Distinct product ids in first-occurrence order, as iterating a Python
dict keyed by `product_id` does. -/
def firstOccurrences : List Nat → List Nat
  | [] => []
  | x :: xs => x :: firstOccurrences (xs.filter (fun y => y ≠ x))
termination_by l => l.length
decreasing_by
  simp only [List.length_cons]
  exact Nat.lt_succ_of_le (List.length_filter_le _ _)

/-- Orders referencing a window (`Order.bulk_order_window_id == window.id`). -/
def ordersOfWindow (db : DB) (wid : Nat) : List Order :=
  db.orders.filter (fun o => o.bulk_order_window_id == some wid)

/-- The payment outcome of one settlement iteration (orders.py lines 835-845):
`paid` exactly when the buyer's vendor profile row exists and its balance
covers the repriced total, else `failed`. -/
def settlePayStatus (vendors : List VendorProfile) (new_total : ℚ) (buyer : Nat) :
    PaymentStatus :=
  match vendors.find? (fun v => v.user_profile_id == buyer) with
  | some v => if new_total ≤ v.balance then .paid else .failed
  | none => .failed

/-- The order-row rewrite of one settlement iteration (orders.py lines
831-833, 843, 845): new unit price, recomputed total, and the payment
outcome computed against the pre-iteration vendor table. -/
def settleUpd (db : DB) (new_price : ℚ) (o : Order) (o2 : Order) : Order :=
  { o2 with price_per_unit := new_price, total_amount := new_price * (o.quantity : ℚ), payment_status := settlePayStatus db.vendors (new_price * (o.quantity : ℚ)) o.buyer_id }

/-- The balance debit applied to the buyer's vendor row on success. -/
def debitUpd (t : ℚ) (v2 : VendorProfile) : VendorProfile :=
  { v2 with balance := v2.balance - t }

/-- One iteration of the per-order settlement loop (orders.py lines 830-847):
reprice the order to the group's unit price, then debit the buyer's vendor
profile exactly when the outcome is `paid`; a `failed` outcome (insufficient
balance or missing vendor row) changes no balance. -/
def settleOrder (db : DB) (new_price : ℚ) (o : Order) : DB :=
  let new_total := new_price * (o.quantity : ℚ)
  let pay := settlePayStatus db.vendors new_total o.buyer_id
  let vs :=
    if pay = .paid then
      updateFirst (fun v2 => v2.user_profile_id == o.buyer_id) (debitUpd new_total) db.vendors
    else db.vendors
  let os := updateFirst (fun o2 => o2.id == o.id) (settleUpd db new_price o) db.orders
  { db with vendors := vs, orders := os }

/-- One product group of a window (orders.py lines 809-847): look up the
product row (`scalar_one`, raising when absent — `none`), resolve the group
price from the summed quantity (raising on an empty tier list — `none`),
then settle every order of the group at that price. -/
def processGroup (db : DB) (pid : Nat) (group : List Order) : Option DB :=
  match db.products.find? (fun p => p.id == pid) with
  | none => none
  | some _product =>
    match calculate_price_for_quantity (db.tiers.filter (fun t => t.product_id == pid))
        ((group.map (fun o => o.quantity)).sum) with
    | none => none
    | some new_price =>
      some (group.foldl (fun d o => settleOrder d new_price o) db)

/-- Process the product groups of one window in order.  A raising group stops
the window's processing; the session mutations already made are retained (the
`except` handler at orders.py lines 864-866 only logs and `continue`s, with no
rollback).  The `Bool` records whether all groups completed. -/
def processGroups (db : DB) : List (Nat × List Order) → DB × Bool
  | [] => (db, true)
  | (pid, g) :: rest =>
    match processGroup db pid g with
    | none => (db, false)
    | some db2 => processGroups db2 rest

/-- The row rewrite applied to a window at finalization. -/
def finalizeUpd (tp : Nat) (ta : ℚ) (w : BulkOrderWindow) : BulkOrderWindow :=
  { w with status := .finalized, total_participants := tp, total_amount := ta }

/-- Finalize a window row: `status = "finalized"` with the computed totals. -/
def finalizeWindow (db : DB) (wid : Nat) (tp : Nat) (ta : ℚ) : DB :=
  { db with windows := updateFirst (fun w => w.id == wid) (finalizeUpd tp ta) db.windows }

/-- Processing of one selected window (orders.py lines 785-866).  Empty
windows are finalized with zero totals and skipped by `continue` (not counted
in `processed_count`); otherwise the product groups are settled, and on full
success the window is finalized with `total_participants` = number of distinct
buyers and `total_amount` = sum of the `paid` orders' totals.  A fault leaves
the window un-finalized but keeps the mutations made before the fault. -/
def processWindowStep (db : DB) (wid : Nat) : DB × Bool :=
  if (ordersOfWindow db wid).isEmpty then
    (finalizeWindow db wid 0 0, false)
  else
    match processGroups db
        ((firstOccurrences ((ordersOfWindow db wid).map (fun o => o.product_id))).map
          (fun p => (p, (ordersOfWindow db wid).filter (fun o => o.product_id == p)))) with
    | (db2, false) => (db2, false)
    | (db2, true) =>
      (finalizeWindow db2 wid
        ((firstOccurrences ((ordersOfWindow db2 wid).map (fun o => o.buyer_id))).length)
        ((((ordersOfWindow db2 wid).filter
            (fun o => o.payment_status == PaymentStatus.paid)).map
          (fun o => o.total_amount)).sum), true)

/-- The sweep's selection query: windows with `status == "open"` and
`window_end_time < now` (orders.py lines 772-781). -/
def selectedWindowIds (db : DB) (now : Nat) : List Nat :=
  (db.windows.filter (fun w => w.status == WindowStatus.open && w.window_end_time < now)).map
    (fun w => w.id)

/-- `process_bulk_windows` (orders.py lines 762-873): select the expired open
windows once, process each in turn (faults isolated per window), and commit.
Returns the committed store and `processed_count`. -/
def process_bulk_windows (db : DB) (now : Nat) : DB × Nat :=
  (selectedWindowIds db now).foldl
    (fun acc wid =>
      let r := processWindowStep acc.1 wid
      (r.1, acc.2 + if r.2 then 1 else 0))
    (db, 0)

/-! ## Payment reconciliation (`verify_payment`) -/

/-- Request body `PaymentVerification` (payments/schemas.py). -/
structure PaymentVerification where
  razorpay_order_id : String
  razorpay_payment_id : String
  razorpay_signature : String
deriving DecidableEq, Repr

/-- The distinct `HTTPException`s `verify_payment` can raise. -/
inductive VerifyError
  | userNotFound
  | paymentNotFound
  | alreadyProcessed
  | invalidSignature
deriving DecidableEq, Repr

/-- The row rewrite recorded on a Payment at successful verification
(payments.py lines 215-218). -/
def completePayment (vd : PaymentVerification) (p : Payment) : Payment :=
  { p with razorpay_payment_id := some vd.razorpay_payment_id, razorpay_signature := some vd.razorpay_signature, status := .completed }

/-- `verify_payment` (payments.py lines 157-260), with the HMAC-SHA256
primitive of `hmac`/`hashlib` passed in as the function `hmacSha256`
(keyed by the shared `RAZORPAY_KEY_SECRET`).  The returned `DB` is the
committed store: an invalid signature commits the `failed` payment status
before raising (payments.py lines 207-213); the other errors commit nothing. -/
def verify_payment (hmacSha256 : String → String → String) (secret : String)
    (db : DB) (current_user_id : String) (role : Role)
    (vd : PaymentVerification) : DB × Except VerifyError ℚ :=
  match db.user_profiles.find? (fun u => u.user_id == current_user_id) with
  | none => (db, .error .userNotFound)
  | some user_profile =>
  match db.payments.find? (fun p =>
      p.razorpay_order_id == vd.razorpay_order_id && p.user_id == user_profile.id) with
  | none => (db, .error .paymentNotFound)
  | some payment =>
  if payment.status ≠ .pending then (db, .error .alreadyProcessed)
  else
    let generated_signature :=
      hmacSha256 secret (vd.razorpay_order_id ++ "|" ++ vd.razorpay_payment_id)
    let samePayment : Payment → Bool := fun p =>
      p.razorpay_order_id == vd.razorpay_order_id && p.user_id == user_profile.id
    if generated_signature ≠ vd.razorpay_signature then
      let ps := updateFirst samePayment (fun p => { p with status := .failed }) db.payments
      ({ db with payments := ps }, .error .invalidSignature)
    else
      let ps := updateFirst samePayment (completePayment vd) db.payments
      let db1 := { db with payments := ps }
      match role with
      | .vendor =>
        match db1.vendors.find? (fun v => v.user_profile_id == user_profile.id) with
        | some v =>
          let vs := updateFirst (fun v2 => v2.user_profile_id == user_profile.id)
            (fun v2 => { v2 with balance := v2.balance + payment.amount }) db1.vendors
          ({ db1 with vendors := vs }, .ok (v.balance + payment.amount))
        | none => (db1, .ok 0)
      | .supplier =>
        match db1.suppliers.find? (fun s => s.user_profile_id == user_profile.id) with
        | some s =>
          let ss := updateFirst (fun s2 => s2.user_profile_id == user_profile.id)
            (fun s2 => { s2 with balance := s2.balance + payment.amount }) db1.suppliers
          ({ db1 with suppliers := ss }, .ok (s.balance + payment.amount))
        | none => (db1, .ok 0)
      | .other => (db1, .ok 0)

/-! ## Derived predicates and the operation algebra -/

/-- Balances of all vendor and supplier profiles are non-negative. -/
def nonnegBalances (db : DB) : Prop :=
  (∀ v ∈ db.vendors, 0 ≤ v.balance) ∧ (∀ s ∈ db.suppliers, 0 ≤ s.balance)

/-- All stored payment amounts are non-negative (guaranteed at creation by
the `amount: float = Field(gt=0)` schema validation). -/
def nonnegPayments (db : DB) : Prop := ∀ p ∈ db.payments, 0 ≤ p.amount

/-- What the settlement phase of a window leaves untouched: every store
component except order pricing/status fields, vendor balances and windows. -/
def LedgerFrame (db0 db1 : DB) : Prop :=
  db1.user_profiles = db0.user_profiles ∧
  db1.suppliers = db0.suppliers ∧
  db1.products = db0.products ∧
  db1.tiers = db0.tiers ∧
  db1.payments = db0.payments ∧
  (∀ (g : Order → Nat × Nat × Nat × Nat × Option Nat),
    (∀ o2 pr t st,
      g { o2 with price_per_unit := pr, total_amount := t, payment_status := st } = g o2) →
    db1.orders.map g = db0.orders.map g) ∧
  (∀ (g : VendorProfile → Nat),
    (∀ v b, g { v with balance := b } = g v) → db1.vendors.map g = db0.vendors.map g)

/-- The system's balance-mutating operations (claim C2): buy-now order
creation, pay-pending payment, the bulk-window settlement sweep, and
payment-verification credit. -/
inductive LedgerOp
  | createOrder (uid : String) (data : OrderCreate) (now freshOrderId : Nat)
  | payPending (uid : String) (orderId : Nat) (now : Nat)
  | sweep (now : Nat)
  | verify (uid : String) (role : Role) (vd : PaymentVerification)

/-- Run one operation against the store; a request rejected with an
`HTTPException` before commit leaves the store unchanged. -/
def applyOp (hmacSha256 : String → String → String) (secret : String) (db : DB) :
    LedgerOp → DB
  | .createOrder uid data now fid =>
    match create_order db uid data now fid with
    | .ok (db', _) => db'
    | .error _ => db
  | .payPending uid oid now =>
    match pay_pending_order db uid oid now with
    | .ok (db', _) => db'
    | .error _ => db
  | .sweep now => (process_bulk_windows db now).1
  | .verify uid role vd => (verify_payment hmacSha256 secret db uid role vd).1

/-- Run a sequence of operations left to right. -/
def applyOps (hmacSha256 : String → String → String) (secret : String) (db : DB)
    (ops : List LedgerOp) : DB :=
  ops.foldl (applyOp hmacSha256 secret) db

/-- The claim's strict applicability check (§4.1): `quantity >= min_quantity`
and, when `max_quantity` is present, `quantity <= max_quantity`. -/
def tierApplicableB (t : BulkPricingTier) (q : Nat) : Bool :=
  t.min_quantity ≤ q &&
    (match t.max_quantity with
     | none => true
     | some m => q ≤ m)

/-! ## Generic lemmas about the store primitives -/

theorem updateFirst_of_find?_none {α} {p : α → Bool} {f : α → α} :
    ∀ {l : List α}, l.find? p = none → updateFirst p f l = l
  | [], _ => rfl
  | x :: xs, h => by
    cases hpx : p x with
    | true => rw [List.find?_cons_of_pos _ hpx] at h; exact absurd h (by simp)
    | false =>
      rw [List.find?_cons_of_neg _ (by simp [hpx])] at h
      simp [updateFirst, hpx, updateFirst_of_find?_none h]

theorem mem_updateFirst {α} {p : α → Bool} {f : α → α} :
    ∀ {l : List α} {b : α}, b ∈ updateFirst p f l →
      b ∈ l ∨ ∃ a, l.find? p = some a ∧ b = f a
  | [], b, hb => by simp [updateFirst] at hb
  | x :: xs, b, hb => by
    by_cases hpx : p x = true
    · simp only [updateFirst, if_pos hpx] at hb
      rcases List.mem_cons.mp hb with h | h
      · exact Or.inr ⟨x, by simp [List.find?_cons, hpx], h⟩
      · exact Or.inl (List.mem_cons_of_mem _ h)
    · simp only [updateFirst, if_neg hpx] at hb
      rcases List.mem_cons.mp hb with h | h
      · exact Or.inl (h ▸ List.mem_cons_self _ _)
      · rcases mem_updateFirst h with h' | ⟨a, ha, hba⟩
        · exact Or.inl (List.mem_cons_of_mem _ h')
        · exact Or.inr ⟨a, by simp [List.find?_cons, hpx, ha], hba⟩

theorem map_updateFirst {α β} (g : α → β) {p : α → Bool} {f : α → α}
    (hf : ∀ a, g (f a) = g a) :
    ∀ (l : List α), (updateFirst p f l).map g = l.map g
  | [] => rfl
  | x :: xs => by
    by_cases hpx : p x = true
    · simp [updateFirst, hpx, hf]
    · simp [updateFirst, hpx, map_updateFirst g hf xs]

theorem find?_updateFirst_other {α} {p q : α → Bool} {f : α → α}
    (hfq : ∀ a, q (f a) = q a) (hpq : ∀ a, p a = true → q a = false) :
    ∀ (l : List α), (updateFirst p f l).find? q = l.find? q
  | [] => rfl
  | x :: xs => by
    by_cases hpx : p x = true
    · simp only [updateFirst, if_pos hpx, List.find?_cons, hfq, hpq x hpx]
    · simp only [updateFirst, if_neg hpx, List.find?_cons]
      split
      · rfl
      · exact find?_updateFirst_other hfq hpq xs

theorem find?_updateFirst_self {α} {p : α → Bool} {f : α → α}
    (hf : ∀ a, p a = true → p (f a) = true) :
    ∀ (l : List α), (updateFirst p f l).find? p = (l.find? p).map f
  | [] => rfl
  | x :: xs => by
    by_cases hpx : p x = true
    · rw [updateFirst, if_pos hpx, List.find?_cons_of_pos _ (hf x hpx),
        List.find?_cons_of_pos _ hpx]
      rfl
    · rw [updateFirst, if_neg (by simp [hpx]),
        List.find?_cons_of_neg _ (by simp [hpx]), List.find?_cons_of_neg _ (by simp [hpx])]
      exact find?_updateFirst_self hf xs

theorem find?_eq_some_of_nodup_key {α β} [DecidableEq β] (key : α → β) :
    ∀ {l : List α}, ((l.map key).Nodup) → ∀ {a : α}, a ∈ l →
      l.find? (fun x => key x == key a) = some a
  | [], _, a, ha => absurd ha (List.not_mem_nil a)
  | x :: xs, hnd, a, ha => by
    rw [List.map_cons, List.nodup_cons] at hnd
    rcases List.mem_cons.mp ha with rfl | hmem
    · exact List.find?_cons_of_pos _ (by simp)
    · have hne : key x ≠ key a := fun h => hnd.1 (h ▸ List.mem_map_of_mem key hmem)
      rw [List.find?_cons_of_neg _ (by simp [hne])]
      exact find?_eq_some_of_nodup_key key hnd.2 hmem

theorem mem_firstOccurrences : ∀ {l : List Nat} {x : Nat},
    x ∈ firstOccurrences l ↔ x ∈ l
  | [], x => by simp [firstOccurrences]
  | y :: ys, x => by
    rw [firstOccurrences]
    constructor
    · intro h
      rcases List.mem_cons.mp h with rfl | h
      · exact List.mem_cons_self _ _
      · have := mem_firstOccurrences.mp h
        exact List.mem_cons_of_mem _ (List.mem_of_mem_filter this)
    · intro h
      rcases List.mem_cons.mp h with rfl | h
      · exact List.mem_cons_self _ _
      · by_cases hxy : x = y
        · exact hxy ▸ List.mem_cons_self _ _
        · refine List.mem_cons_of_mem _ (mem_firstOccurrences.mpr ?_)
          exact List.mem_filter.mpr ⟨h, by simp [hxy]⟩
termination_by l => l.length
decreasing_by
  all_goals simp only [List.length_cons]
  all_goals exact Nat.lt_succ_of_le (List.length_filter_le _ _)

theorem firstOccurrences_nodup : ∀ (l : List Nat), (firstOccurrences l).Nodup
  | [] => by rw [firstOccurrences]; exact List.nodup_nil
  | y :: ys => by
    rw [firstOccurrences, List.nodup_cons]
    refine ⟨fun hmem => ?_, firstOccurrences_nodup _⟩
    have := List.mem_filter.mp (mem_firstOccurrences.mp hmem)
    simp at this
termination_by l => l.length
decreasing_by
  simp only [List.length_cons]
  exact Nat.lt_succ_of_le (List.length_filter_le _ _)

theorem length_insertTier (t : BulkPricingTier) :
    ∀ (l : List BulkPricingTier), (insertTier t l).length = l.length + 1
  | [] => rfl
  | u :: rest => by
    by_cases h : t.min_quantity < u.min_quantity
    · simp [insertTier, h]
    · simp [insertTier, h, length_insertTier t rest]

theorem length_sortTiers (ts : List BulkPricingTier) :
    (sortTiers ts).length = ts.length := by
  suffices h : ∀ (ts acc : List BulkPricingTier),
      (ts.foldl (fun acc t => insertTier t acc) acc).length = ts.length + acc.length by
    simpa using h ts []
  intro ts
  induction ts with
  | nil => simp
  | cons t rest ih =>
    intro acc
    simp only [List.foldl_cons, ih, length_insertTier, List.length_cons]
    omega

theorem calculate_price_isSome {ts : List BulkPricingTier} (h : ts ≠ []) (q : Nat) :
    (calculate_price_for_quantity ts q).isSome := by
  unfold calculate_price_for_quantity
  split
  · rename_i hsorted
    have := length_sortTiers ts
    rw [hsorted] at this
    exact absurd (List.length_eq_zero.mp this.symm) h
  · split <;> rfl

/-- A simple preservation principle for `List.foldl`. -/
theorem foldl_preserve {α β} {P : β → Prop} {step : β → α → β}
    (h : ∀ b a, P b → P (step b a)) :
    ∀ (l : List α) (b : β), P b → P (l.foldl step b)
  | [], _, hb => hb
  | x :: xs, b, hb => foldl_preserve h xs (step b x) (h b x hb)

/-! ## Frame lemmas for the settlement engine -/

theorem settleOrder_frame (db : DB) (P : ℚ) (o : Order) :
    (settleOrder db P o).user_profiles = db.user_profiles ∧
    (settleOrder db P o).suppliers = db.suppliers ∧
    (settleOrder db P o).products = db.products ∧
    (settleOrder db P o).tiers = db.tiers ∧
    (settleOrder db P o).payments = db.payments ∧
    (settleOrder db P o).windows = db.windows :=
  ⟨rfl, rfl, rfl, rfl, rfl, rfl⟩

theorem settleOrder_orders_map {β} (g : Order → β)
    (hg : ∀ o2 pr t st,
      g { o2 with price_per_unit := pr, total_amount := t, payment_status := st } = g o2)
    (db : DB) (P : ℚ) (o : Order) :
    (settleOrder db P o).orders.map g = db.orders.map g :=
  map_updateFirst g (fun o2 => hg o2 _ _ _) db.orders

theorem settleOrder_vendors_def (db : DB) (P : ℚ) (o : Order) :
    (settleOrder db P o).vendors =
      (if settlePayStatus db.vendors (P * (o.quantity : ℚ)) o.buyer_id = PaymentStatus.paid
       then updateFirst (fun v2 => v2.user_profile_id == o.buyer_id)
         (debitUpd (P * (o.quantity : ℚ))) db.vendors
       else db.vendors) := rfl

theorem settleOrder_orders_def (db : DB) (P : ℚ) (o : Order) :
    (settleOrder db P o).orders =
      updateFirst (fun o2 => o2.id == o.id) (settleUpd db P o) db.orders := rfl

theorem settleOrder_vendors_map {β} (g : VendorProfile → β)
    (hg : ∀ v b, g { v with balance := b } = g v)
    (db : DB) (P : ℚ) (o : Order) :
    (settleOrder db P o).vendors.map g = db.vendors.map g := by
  rw [settleOrder_vendors_def]
  split
  · exact map_updateFirst g (fun v => hg v _) db.vendors
  · rfl

theorem settlePayStatus_paid_iff {vs : List VendorProfile} {t : ℚ} {b : Nat} :
    settlePayStatus vs t b = .paid ↔
      ∃ v, vs.find? (fun v => v.user_profile_id == b) = some v ∧ t ≤ v.balance := by
  unfold settlePayStatus
  cases hf : vs.find? (fun v => v.user_profile_id == b) with
  | none => simp
  | some v =>
    dsimp only
    constructor
    · intro h
      by_cases hle : t ≤ v.balance
      · exact ⟨v, rfl, hle⟩
      · rw [if_neg hle] at h
        exact absurd h (by simp)
    · rintro ⟨v', hv', hle⟩
      rw [Option.some_inj] at hv'
      subst hv'
      simp [hle]

theorem settleOrder_nonneg {db : DB} (P : ℚ) (o : Order)
    (h : nonnegBalances db) : nonnegBalances (settleOrder db P o) := by
  refine ⟨fun v hv => ?_, fun s hs => h.2 s hs⟩
  revert hv
  rw [settleOrder_vendors_def]
  split
  · rename_i hpaid
    intro hv
    rcases mem_updateFirst hv with hmem | ⟨a, ha, rfl⟩
    · exact h.1 v hmem
    · rcases settlePayStatus_paid_iff.mp hpaid with ⟨v', hv', hle⟩
      rw [ha] at hv'
      rw [Option.some_inj] at hv'
      subst hv'
      simpa [debitUpd] using sub_nonneg.mpr hle
  · exact h.1 v

theorem ledgerFrame_refl (db : DB) : LedgerFrame db db :=
  ⟨rfl, rfl, rfl, rfl, rfl, fun _ _ => rfl, fun _ _ => rfl⟩

theorem ledgerFrame_trans {a b c : DB} (h1 : LedgerFrame a b) (h2 : LedgerFrame b c) :
    LedgerFrame a c :=
  ⟨h2.1.trans h1.1, h2.2.1.trans h1.2.1, h2.2.2.1.trans h1.2.2.1,
   h2.2.2.2.1.trans h1.2.2.2.1, h2.2.2.2.2.1.trans h1.2.2.2.2.1,
   fun g hg => (h2.2.2.2.2.2.1 g hg).trans (h1.2.2.2.2.2.1 g hg),
   fun g hg => (h2.2.2.2.2.2.2 g hg).trans (h1.2.2.2.2.2.2 g hg)⟩

theorem settleOrder_ledgerFrame (db : DB) (P : ℚ) (o : Order) :
    LedgerFrame db (settleOrder db P o) :=
  ⟨rfl, rfl, rfl, rfl, rfl,
   fun g hg => settleOrder_orders_map g hg db P o,
   fun g hg => settleOrder_vendors_map g hg db P o⟩

theorem settleFold_ledgerFrame (P : ℚ) (g : List Order) (db : DB) :
    LedgerFrame db (g.foldl (fun d x => settleOrder d P x) db) := by
  refine foldl_preserve (P := fun d => LedgerFrame db d) ?_ g db (ledgerFrame_refl db)
  intro d x hd
  exact ledgerFrame_trans hd (settleOrder_ledgerFrame d P x)

theorem settleFold_windows (P : ℚ) (g : List Order) (db : DB) :
    (g.foldl (fun d x => settleOrder d P x) db).windows = db.windows := by
  refine foldl_preserve (P := fun d => d.windows = db.windows) ?_ g db rfl
  intro d x hd
  exact hd

theorem processGroup_ledgerFrame {db db2 : DB} {pid : Nat} {g : List Order}
    (h : processGroup db pid g = some db2) : LedgerFrame db db2 ∧ db2.windows = db.windows := by
  unfold processGroup at h
  cases hp : db.products.find? (fun p => p.id == pid) with
  | none => rw [hp] at h; exact absurd h (by simp)
  | some prod =>
    rw [hp] at h
    cases hc : calculate_price_for_quantity
        (db.tiers.filter (fun t => t.product_id == pid))
        ((g.map (fun o => o.quantity)).sum) with
    | none => rw [hc] at h; exact absurd h (by simp)
    | some newp =>
      rw [hc] at h
      rw [Option.some_inj] at h
      subst h
      exact ⟨settleFold_ledgerFrame newp g db, settleFold_windows newp g db⟩

theorem processGroups_ledgerFrame :
    ∀ (groups : List (Nat × List Order)) (db : DB),
      LedgerFrame db (processGroups db groups).1 ∧
      (processGroups db groups).1.windows = db.windows
  | [], db => ⟨ledgerFrame_refl db, rfl⟩
  | (pid, g) :: rest, db => by
    have heq : processGroups db ((pid, g) :: rest) =
        (match processGroup db pid g with
         | none => (db, false)
         | some db2 => processGroups db2 rest) := rfl
    rw [heq]
    cases hg : processGroup db pid g with
    | none => exact ⟨ledgerFrame_refl db, rfl⟩
    | some db2 =>
      have h1 := processGroup_ledgerFrame hg
      have h2 := processGroups_ledgerFrame rest db2
      exact ⟨ledgerFrame_trans h1.1 h2.1, h2.2.trans h1.2⟩

theorem processWindowStep_ledgerFrame (db : DB) (wid : Nat) :
    LedgerFrame db (processWindowStep db wid).1 := by
  unfold processWindowStep
  by_cases he : (ordersOfWindow db wid).isEmpty
  · simp only [he, if_pos]
    exact ledgerFrame_refl db
  · simp only [he, if_neg, Bool.false_eq_true, not_false_iff]
    cases hg : processGroups db
        ((firstOccurrences ((ordersOfWindow db wid).map (fun o => o.product_id))).map
          (fun p => (p, (ordersOfWindow db wid).filter (fun o => o.product_id == p)))) with
    | mk db2 ok =>
      have h := processGroups_ledgerFrame
        ((firstOccurrences ((ordersOfWindow db wid).map (fun o => o.product_id))).map
          (fun p => (p, (ordersOfWindow db wid).filter (fun o => o.product_id == p)))) db
      rw [hg] at h
      cases ok with
      | false => exact h.1
      | true => exact h.1

theorem processWindowStep_windows (db : DB) (wid : Nat) :
    (processWindowStep db wid).1.windows = db.windows ∨
    ∃ tp ta, (processWindowStep db wid).1.windows =
      updateFirst (fun w => w.id == wid) (finalizeUpd tp ta) db.windows := by
  unfold processWindowStep
  by_cases he : (ordersOfWindow db wid).isEmpty
  · simp only [he, if_pos]
    exact Or.inr ⟨0, 0, rfl⟩
  · simp only [he, if_neg, Bool.false_eq_true, not_false_iff]
    cases hg : processGroups db
        ((firstOccurrences ((ordersOfWindow db wid).map (fun o => o.product_id))).map
          (fun p => (p, (ordersOfWindow db wid).filter (fun o => o.product_id == p)))) with
    | mk db2 ok =>
      have h := processGroups_ledgerFrame
        ((firstOccurrences ((ordersOfWindow db wid).map (fun o => o.product_id))).map
          (fun p => (p, (ordersOfWindow db wid).filter (fun o => o.product_id == p)))) db
      rw [hg] at h
      cases ok with
      | false => exact Or.inl h.2
      | true =>
        right
        refine ⟨(firstOccurrences ((ordersOfWindow db2 wid).map (fun o => o.buyer_id))).length,
          (((ordersOfWindow db2 wid).filter
              (fun o => o.payment_status == PaymentStatus.paid)).map
            (fun o => o.total_amount)).sum, ?_⟩
        show (finalizeWindow db2 wid _ _).windows = _
        unfold finalizeWindow
        rw [h.2]

/-! ## Projection lemmas for `finishOrder` and success inversion for the
admission/settlement operations -/

theorem finishOrder_vendors_buy_now {db : DB} {buyer : UserProfile} {product : Product}
    {price total : ℚ} {qty : Nat} {windowId : Option Nat} {now fid : Nat} :
    (finishOrder db buyer product price total qty .buy_now windowId now fid).1.vendors =
      updateFirst (fun v => v.user_profile_id == buyer.id)
        (fun v => { v with balance := v.balance - total }) db.vendors := rfl

theorem finishOrder_vendors_other {db : DB} {buyer : UserProfile} {product : Product}
    {price total : ℚ} {qty : Nat} {effType : OrderType} {windowId : Option Nat} {now fid : Nat}
    (ht : effType ≠ .buy_now) :
    (finishOrder db buyer product price total qty effType windowId now fid).1.vendors =
      db.vendors := by
  simp [finishOrder, ht]

theorem finishOrder_rest {db : DB} {buyer : UserProfile} {product : Product}
    {price total : ℚ} {qty : Nat} {effType : OrderType} {windowId : Option Nat} {now fid : Nat} :
    (finishOrder db buyer product price total qty effType windowId now fid).1.suppliers
        = db.suppliers ∧
    (finishOrder db buyer product price total qty effType windowId now fid).1.user_profiles
        = db.user_profiles ∧
    (finishOrder db buyer product price total qty effType windowId now fid).1.products
        = db.products ∧
    (finishOrder db buyer product price total qty effType windowId now fid).1.tiers
        = db.tiers ∧
    (finishOrder db buyer product price total qty effType windowId now fid).1.payments
        = db.payments ∧
    (finishOrder db buyer product price total qty effType windowId now fid).1.windows
        = db.windows := by
  by_cases ht : effType = OrderType.buy_now
  · subst ht; exact ⟨rfl, rfl, rfl, rfl, rfl, rfl⟩
  · simp [finishOrder, ht]

theorem finishOrder_orders {db : DB} {buyer : UserProfile} {product : Product}
    {price total : ℚ} {qty : Nat} {effType : OrderType} {windowId : Option Nat} {now fid : Nat} :
    (finishOrder db buyer product price total qty effType windowId now fid).1.orders =
      db.orders ++ [(finishOrder db buyer product price total qty effType windowId now fid).2] := by
  by_cases ht : effType = OrderType.buy_now
  · subst ht; rfl
  · simp [finishOrder, ht]

theorem finishOrder_order_fields {db : DB} {buyer : UserProfile} {product : Product}
    {price total : ℚ} {qty : Nat} {effType : OrderType} {windowId : Option Nat} {now fid : Nat} :
    (finishOrder db buyer product price total qty effType windowId now fid).2 =
      { id := fid, buyer_id := buyer.id, seller_id := product.supplier_profile_id,
        product_id := product.id, quantity := qty, price_per_unit := price,
        total_amount := total, order_type := effType,
        payment_status := if effType = .buy_now then .paid else .pending,
        due_date := if effType = .buy_now_pay_later then some (now + payLaterDueSeconds) else none,
        bulk_order_window_id := windowId } := by
  by_cases ht : effType = OrderType.buy_now
  · subst ht; rfl
  · simp [finishOrder, ht]

/-- Success inversion for `create_order`: the facts about the branch taken
that the balance invariant needs. -/
theorem create_order_ok_inv {db : DB} {uid : String} {data : OrderCreate} {now fid : Nat}
    {db' : DB} {ord : Order}
    (h : create_order db uid data now fid = Except.ok (db', ord)) :
    ∃ buyer vendor product price effType windowId,
      db.vendors.find? (fun v => v.user_profile_id == buyer.id) = some vendor ∧
      (db', ord) = finishOrder db buyer product price (price * (data.quantity : ℚ))
        data.quantity effType windowId now fid ∧
      (effType = .buy_now → price * (data.quantity : ℚ) ≤ vendor.balance) := by
  unfold create_order at h
  cases hbp : db.user_profiles.find? (fun u => u.user_id == uid) with
  | none => rw [hbp] at h; exact absurd h (by simp)
  | some buyer =>
  rw [hbp] at h
  dsimp only at h
  cases hvp : db.vendors.find? (fun v => v.user_profile_id == buyer.id) with
  | none => rw [hvp] at h; exact absurd h (by simp)
  | some vendor =>
  rw [hvp] at h
  dsimp only at h
  by_cases hact : ¬vendor.is_active
  · rw [if_pos hact] at h; exact absurd h (by simp)
  rw [if_neg hact] at h
  cases hpr : db.products.find? (fun p => p.id == data.product_id) with
  | none => rw [hpr] at h; exact absurd h (by simp)
  | some product =>
  rw [hpr] at h
  dsimp only at h
  by_cases hpact : ¬product.is_active
  · rw [if_pos hpact] at h; exact absurd h (by simp)
  rw [if_neg hpact] at h
  by_cases hq : data.quantity < product.minimum_order_quantity
  · rw [if_pos hq] at h; exact absurd h (by simp)
  rw [if_neg hq] at h
  cases hpc : calculate_price_for_quantity
      (db.tiers.filter (fun t => t.product_id == product.id)) data.quantity with
  | none => rw [hpc] at h; exact absurd h (by simp)
  | some price =>
  rw [hpc] at h
  dsimp only at h
  by_cases hel : data.order_type = OrderType.buy_now_pay_later ∧
      vendor.average_rating < (9/2 : ℚ)
  · rw [if_pos hel] at h; exact absurd h (by simp)
  rw [if_neg hel] at h
  by_cases hbal : data.order_type = OrderType.buy_now ∧
      vendor.balance < price * (data.quantity : ℚ)
  · rw [if_pos hbal] at h; exact absurd h (by simp)
  rw [if_neg hbal] at h
  have hbal' : data.order_type = .buy_now → price * (data.quantity : ℚ) ≤ vendor.balance := by
    intro ht
    by_contra hlt
    exact hbal ⟨ht, lt_of_not_le hlt⟩
  cases hw : data.bulk_order_window_id with
  | some wid =>
    rw [hw] at h
    dsimp only at h
    cases hwf : db.windows.find? (fun w => w.id == wid) with
    | none => rw [hwf] at h; exact absurd h (by simp)
    | some bw =>
    rw [hwf] at h
    dsimp only at h
    by_cases hst : bw.status ≠ WindowStatus.open
    · rw [if_pos hst] at h; exact absurd h (by simp)
    rw [if_neg hst] at h
    by_cases hend : bw.window_end_time < now
    · rw [if_pos hend] at h; exact absurd h (by simp)
    rw [if_neg hend] at h
    rw [Except.ok.injEq] at h
    exact ⟨buyer, vendor, product, price, .bulk_order, some wid, hvp, h.symm,
      fun hc => absurd hc (by simp)⟩
  | none =>
    rw [hw] at h
    dsimp only at h
    rw [Except.ok.injEq] at h
    exact ⟨buyer, vendor, product, price, data.order_type, none, hvp, h.symm, hbal'⟩

theorem create_order_nonneg {db : DB} {uid : String} {data : OrderCreate} {now fid : Nat}
    {db' : DB} {ord : Order}
    (h : create_order db uid data now fid = Except.ok (db', ord))
    (hn : nonnegBalances db) : nonnegBalances db' := by
  obtain ⟨buyer, vendor, product, price, effType, windowId, hvp, heq, hbal⟩ :=
    create_order_ok_inv h
  have hdb' : db' = (finishOrder db buyer product price (price * (data.quantity : ℚ))
      data.quantity effType windowId now fid).1 := congrArg Prod.fst heq
  subst hdb'
  constructor
  · intro v hv
    by_cases ht : effType = OrderType.buy_now
    · subst ht
      rw [finishOrder_vendors_buy_now] at hv
      rcases mem_updateFirst hv with hmem | ⟨a, ha, rfl⟩
      · exact hn.1 v hmem
      · rw [hvp] at ha
        rw [Option.some_inj] at ha
        subst ha
        simpa using sub_nonneg.mpr (hbal rfl)
    · rw [finishOrder_vendors_other ht] at hv
      exact hn.1 v hv
  · intro s hs
    rw [finishOrder_rest.1] at hs
    exact hn.2 s hs

/-- Success inversion for `pay_pending_order`: the store components the
balance invariant needs. -/
theorem pay_pending_ok_inv {db : DB} {uid : String} {oid now : Nat} {db' : DB} {bal : ℚ}
    (h : pay_pending_order db uid oid now = Except.ok (db', bal)) :
    ∃ (user : UserProfile) (vendor : VendorProfile) (order : Order),
      db.vendors.find? (fun v => v.user_profile_id == user.id) = some vendor ∧
      order.total_amount ≤ vendor.balance ∧
      db'.vendors = updateFirst (fun v => v.user_profile_id == user.id)
        (fun v => { v with balance := v.balance - order.total_amount }) db.vendors ∧
      db'.suppliers = db.suppliers ∧
      db'.payments = db.payments := by
  unfold pay_pending_order at h
  cases hu : db.user_profiles.find? (fun u => u.user_id == uid) with
  | none => rw [hu] at h; exact absurd h (by simp)
  | some user =>
  rw [hu] at h
  dsimp only at h
  cases hv : db.vendors.find? (fun v => v.user_profile_id == user.id) with
  | none => rw [hv] at h; exact absurd h (by simp)
  | some vendor =>
  rw [hv] at h
  dsimp only at h
  cases ho : db.orders.find? (fun o => o.id == oid && o.buyer_id == user.id) with
  | none => rw [ho] at h; exact absurd h (by simp)
  | some order =>
  rw [ho] at h
  dsimp only at h
  by_cases h1 : order.payment_status ≠ PaymentStatus.pending
  · rw [if_pos h1] at h; exact absurd h (by simp)
  rw [if_neg h1] at h
  by_cases h2 : order.order_type ≠ OrderType.buy_now_pay_later
  · rw [if_pos h2] at h; exact absurd h (by simp)
  rw [if_neg h2] at h
  by_cases h3 : order.due_date.any (fun d => decide (d < now)) = true
  · rw [if_pos h3] at h; exact absurd h (by simp)
  rw [if_neg h3] at h
  by_cases h4 : vendor.balance < order.total_amount
  · rw [if_pos h4] at h; exact absurd h (by simp)
  rw [if_neg h4] at h
  rw [Except.ok.injEq, Prod.mk.injEq] at h
  obtain ⟨hdb, hbal⟩ := h
  subst hdb
  exact ⟨user, vendor, order, hv, le_of_not_lt h4, rfl, rfl, rfl⟩

theorem pay_pending_nonneg {db : DB} {uid : String} {oid now : Nat} {db' : DB} {bal : ℚ}
    (h : pay_pending_order db uid oid now = Except.ok (db', bal))
    (hn : nonnegBalances db) : nonnegBalances db' := by
  obtain ⟨user, vendor, order, hv, hle, hvs, hss, _⟩ := pay_pending_ok_inv h
  constructor
  · intro v hv'
    rw [hvs] at hv'
    rcases mem_updateFirst hv' with hmem | ⟨a, ha, rfl⟩
    · exact hn.1 v hmem
    · rw [hv] at ha
      rw [Option.some_inj] at ha
      subst ha
      simpa using sub_nonneg.mpr hle
  · intro s hs
    rw [hss] at hs
    exact hn.2 s hs

theorem verify_payment_nonneg (hmacSha256 : String → String → String) (secret : String)
    (db : DB) (uid : String) (role : Role) (vd : PaymentVerification)
    (hn : nonnegBalances db) (hp : nonnegPayments db) :
    nonnegBalances (verify_payment hmacSha256 secret db uid role vd).1 := by
  unfold verify_payment
  cases hu : db.user_profiles.find? (fun u => u.user_id == uid) with
  | none => exact hn
  | some user =>
  dsimp only
  cases hpay : db.payments.find? (fun p =>
      p.razorpay_order_id == vd.razorpay_order_id && p.user_id == user.id) with
  | none => exact hn
  | some payment =>
  dsimp only
  have hamt : 0 ≤ payment.amount := hp payment (List.mem_of_find?_eq_some hpay)
  by_cases h1 : payment.status ≠ PayStatus.pending
  · rw [if_pos h1]; exact hn
  rw [if_neg h1]
  by_cases h2 : hmacSha256 secret (vd.razorpay_order_id ++ "|" ++ vd.razorpay_payment_id) ≠
      vd.razorpay_signature
  · rw [if_pos h2]; exact hn
  rw [if_neg h2]
  cases role with
  | other => exact ⟨fun v hv => hn.1 v hv, fun s hs => hn.2 s hs⟩
  | vendor =>
    dsimp only
    cases hvf : db.vendors.find? (fun v => v.user_profile_id == user.id) with
    | none => exact ⟨fun v hv => hn.1 v hv, fun s hs => hn.2 s hs⟩
    | some v0 =>
      dsimp only
      refine ⟨fun v hv => ?_, fun s hs => hn.2 s hs⟩
      rcases mem_updateFirst hv with hmem | ⟨a, ha, rfl⟩
      · exact hn.1 v hmem
      · have hmem : a ∈ db.vendors := List.mem_of_find?_eq_some ha
        have := hn.1 a hmem
        simp only []
        positivity
  | supplier =>
    dsimp only
    cases hsf : db.suppliers.find? (fun s => s.user_profile_id == user.id) with
    | none => exact ⟨fun v hv => hn.1 v hv, fun s hs => hn.2 s hs⟩
    | some s0 =>
      dsimp only
      refine ⟨fun v hv => hn.1 v hv, fun s hs => ?_⟩
      rcases mem_updateFirst hs with hmem | ⟨a, ha, rfl⟩
      · exact hn.2 s hmem
      · have hmem : a ∈ db.suppliers := List.mem_of_find?_eq_some ha
        have := hn.2 a hmem
        simp only []
        positivity

theorem verify_payment_nonnegPayments (hmacSha256 : String → String → String) (secret : String)
    (db : DB) (uid : String) (role : Role) (vd : PaymentVerification)
    (hp : nonnegPayments db) :
    nonnegPayments (verify_payment hmacSha256 secret db uid role vd).1 := by
  unfold verify_payment
  cases hu : db.user_profiles.find? (fun u => u.user_id == uid) with
  | none => exact hp
  | some user =>
  dsimp only
  cases hpay : db.payments.find? (fun p =>
      p.razorpay_order_id == vd.razorpay_order_id && p.user_id == user.id) with
  | none => exact hp
  | some payment =>
  dsimp only
  by_cases h1 : payment.status ≠ PayStatus.pending
  · rw [if_pos h1]; exact hp
  rw [if_neg h1]
  have key : ∀ (pred : Payment → Bool) (f : Payment → Payment),
      (∀ p, (f p).amount = p.amount) →
      ∀ p ∈ updateFirst pred f db.payments, 0 ≤ p.amount := by
    intro pred f hf p hp'
    rcases mem_updateFirst hp' with hmem | ⟨a, ha, rfl⟩
    · exact hp p hmem
    · rw [hf a]; exact hp a (List.mem_of_find?_eq_some ha)
  by_cases h2 : hmacSha256 secret (vd.razorpay_order_id ++ "|" ++ vd.razorpay_payment_id) ≠
      vd.razorpay_signature
  · rw [if_pos h2]
    show ∀ p ∈ updateFirst _ _ db.payments, 0 ≤ p.amount
    exact key _ _ (fun _ => rfl)
  rw [if_neg h2]
  cases role with
  | other =>
    show ∀ p ∈ updateFirst _ _ db.payments, 0 ≤ p.amount
    exact key _ _ (fun _ => rfl)
  | vendor =>
    dsimp only
    cases hvf : db.vendors.find? (fun v => v.user_profile_id == user.id) with
    | none =>
      show ∀ p ∈ updateFirst _ _ db.payments, 0 ≤ p.amount
      exact key _ _ (fun _ => rfl)
    | some v0 =>
      show ∀ p ∈ updateFirst _ _ db.payments, 0 ≤ p.amount
      exact key _ _ (fun _ => rfl)
  | supplier =>
    dsimp only
    cases hsf : db.suppliers.find? (fun s => s.user_profile_id == user.id) with
    | none =>
      show ∀ p ∈ updateFirst _ _ db.payments, 0 ≤ p.amount
      exact key _ _ (fun _ => rfl)
    | some s0 =>
      show ∀ p ∈ updateFirst _ _ db.payments, 0 ≤ p.amount
      exact key _ _ (fun _ => rfl)

theorem processGroup_nonneg {db db2 : DB} {pid : Nat} {g : List Order}
    (h : processGroup db pid g = some db2) (hn : nonnegBalances db) :
    nonnegBalances db2 := by
  unfold processGroup at h
  cases hpr : db.products.find? (fun p => p.id == pid) with
  | none => rw [hpr] at h; exact absurd h (by simp)
  | some prod =>
  rw [hpr] at h
  dsimp only at h
  cases hc : calculate_price_for_quantity (db.tiers.filter (fun t => t.product_id == pid))
      ((g.map (fun o => o.quantity)).sum) with
  | none => rw [hc] at h; exact absurd h (by simp)
  | some newp =>
  rw [hc] at h
  rw [Option.some_inj] at h
  subst h
  exact foldl_preserve (fun d o hd => settleOrder_nonneg newp o hd) g db hn

theorem processGroups_nonneg :
    ∀ (groups : List (Nat × List Order)) (db : DB), nonnegBalances db →
      nonnegBalances (processGroups db groups).1
  | [], _, hn => hn
  | (pid, g) :: rest, db, hn => by
    have heq : processGroups db ((pid, g) :: rest) =
        (match processGroup db pid g with
         | none => (db, false)
         | some db2 => processGroups db2 rest) := rfl
    rw [heq]
    cases hg : processGroup db pid g with
    | none => exact hn
    | some db2 => exact processGroups_nonneg rest db2 (processGroup_nonneg hg hn)

theorem processWindowStep_nonneg (db : DB) (wid : Nat) (hn : nonnegBalances db) :
    nonnegBalances (processWindowStep db wid).1 := by
  unfold processWindowStep
  by_cases he : (ordersOfWindow db wid).isEmpty
  · simp only [he, if_pos]
    exact hn
  · simp only [he, if_neg, Bool.false_eq_true, not_false_iff]
    cases hg : processGroups db
        ((firstOccurrences ((ordersOfWindow db wid).map (fun o => o.product_id))).map
          (fun p => (p, (ordersOfWindow db wid).filter (fun o => o.product_id == p)))) with
    | mk db2 ok =>
      have h := processGroups_nonneg
        ((firstOccurrences ((ordersOfWindow db wid).map (fun o => o.product_id))).map
          (fun p => (p, (ordersOfWindow db wid).filter (fun o => o.product_id == p)))) db hn
      rw [hg] at h
      cases ok with
      | false => exact h
      | true => exact h

theorem process_bulk_windows_nonneg (db : DB) (now : Nat) (hn : nonnegBalances db) :
    nonnegBalances (process_bulk_windows db now).1 := by
  unfold process_bulk_windows
  refine foldl_preserve (P := fun acc : DB × Nat => nonnegBalances acc.1) ?_ _ _ hn
  intro acc wid hacc
  exact processWindowStep_nonneg acc.1 wid hacc

theorem process_bulk_windows_payments (db : DB) (now : Nat) :
    (process_bulk_windows db now).1.payments = db.payments := by
  unfold process_bulk_windows
  refine foldl_preserve (P := fun acc : DB × Nat => acc.1.payments = db.payments) ?_ _ _ rfl
  intro acc wid hacc
  exact ((processWindowStep_ledgerFrame acc.1 wid).2.2.2.2.1).trans hacc

theorem create_order_payments {db : DB} {uid : String} {data : OrderCreate} {now fid : Nat}
    {db' : DB} {ord : Order}
    (h : create_order db uid data now fid = Except.ok (db', ord)) :
    db'.payments = db.payments := by
  obtain ⟨buyer, vendor, product, price, effType, windowId, _, heq, _⟩ :=
    create_order_ok_inv h
  have hdb' : db' = (finishOrder db buyer product price (price * (data.quantity : ℚ))
      data.quantity effType windowId now fid).1 := congrArg Prod.fst heq
  rw [hdb']
  exact finishOrder_rest.2.2.2.2.1

theorem applyOp_invariant (hmacSha256 : String → String → String) (secret : String)
    (db : DB) (op : LedgerOp)
    (h : nonnegBalances db ∧ nonnegPayments db) :
    nonnegBalances (applyOp hmacSha256 secret db op) ∧
      nonnegPayments (applyOp hmacSha256 secret db op) := by
  cases op with
  | createOrder uid data now fid =>
    unfold applyOp
    dsimp only
    cases hc : create_order db uid data now fid with
    | error e => exact h
    | ok res =>
      cases res with
      | mk db' ord =>
        refine ⟨create_order_nonneg hc h.1, fun p hp => ?_⟩
        have hp' : p ∈ db'.payments := hp
        rw [create_order_payments hc] at hp'
        exact h.2 p hp'
  | payPending uid oid now =>
    unfold applyOp
    dsimp only
    cases hc : pay_pending_order db uid oid now with
    | error e => exact h
    | ok res =>
      cases res with
      | mk db' bal =>
        refine ⟨pay_pending_nonneg hc h.1, fun p hp => ?_⟩
        obtain ⟨_, _, _, _, _, _, _, hpay⟩ := pay_pending_ok_inv hc
        have hp' : p ∈ db'.payments := hp
        rw [hpay] at hp'
        exact h.2 p hp'
  | sweep now =>
    refine ⟨process_bulk_windows_nonneg db now h.1, ?_⟩
    intro p hp
    have hp' : p ∈ (process_bulk_windows db now).1.payments := hp
    rw [process_bulk_windows_payments db now] at hp'
    exact h.2 p hp'
  | verify uid role vd =>
    exact ⟨verify_payment_nonneg hmacSha256 secret db uid role vd h.1 h.2,
      verify_payment_nonnegPayments hmacSha256 secret db uid role vd h.2⟩

/-- C2: for every account (vendor or supplier profile), starting from
non-negative balances (and non-negative stored payment amounts, which the
`amount > 0` schema validation guarantees), any sequence of the system's
balance-mutating operations — buy-now order creation, pay-pending payment,
bulk-window settlement debits, and payment-verification credits — leaves all
balances non-negative: every debit path is guarded by a balance check on the
row it debits. -/
theorem C2_balances_never_negative (hmacSha256 : String → String → String)
    (secret : String) (db : DB) (ops : List LedgerOp)
    (h0 : nonnegBalances db) (hp0 : nonnegPayments db) :
    nonnegBalances (applyOps hmacSha256 secret db ops) := by
  suffices h : nonnegBalances (applyOps hmacSha256 secret db ops) ∧
      nonnegPayments (applyOps hmacSha256 secret db ops) from h.1
  unfold applyOps
  refine foldl_preserve (P := fun d => nonnegBalances d ∧ nonnegPayments d) ?_ ops db ⟨h0, hp0⟩
  intro d op hd
  exact applyOp_invariant hmacSha256 secret d op hd

/-- Witness for C2 at a concrete store and operation sequence. -/
theorem C2_balances_never_negative_witness :
    nonnegBalances (applyOps (fun _ _ => "sig") "sec"
      ⟨[⟨1, "u1"⟩], [⟨1, 100, true, 5⟩], [], [⟨1, 2, true, 1⟩], [⟨1, 1, none, 5⟩], [], [],
        [⟨1, 1, 50, "ord1", none, none, .pending⟩]⟩
      [LedgerOp.createOrder "u1" ⟨1, 2, .buy_now, none⟩ 0 10,
       LedgerOp.verify "u1" .vendor ⟨"ord1", "p", "sig"⟩,
       LedgerOp.sweep 5]) := by
  apply C2_balances_never_negative
  · exact ⟨by decide, by decide⟩
  · intro p hp
    obtain rfl := List.mem_singleton.mp hp
    decide

/-! ## Claim C3: the no-strictly-applicable-tier fallback -/

theorem mem_insertTier {t x : BulkPricingTier} :
    ∀ {l : List BulkPricingTier}, x ∈ insertTier t l ↔ x = t ∨ x ∈ l
  | [] => by simp [insertTier]
  | u :: rest => by
    by_cases h : t.min_quantity < u.min_quantity
    · simp [insertTier, h]
    · simp only [insertTier, if_neg h, List.mem_cons, mem_insertTier (l := rest)]
      tauto

theorem mem_sortTiers {x : BulkPricingTier} {ts : List BulkPricingTier} :
    x ∈ sortTiers ts ↔ x ∈ ts := by
  suffices h : ∀ (ts acc : List BulkPricingTier),
      x ∈ ts.foldl (fun acc t => insertTier t acc) acc ↔ x ∈ ts ∨ x ∈ acc by
    simpa [sortTiers] using h ts []
  intro ts
  induction ts with
  | nil => simp
  | cons t rest ih =>
    intro acc
    rw [List.foldl_cons, ih (insertTier t acc), mem_insertTier]
    simp only [List.mem_cons]
    tauto

theorem findApplicableTier_of_none {q : Nat} :
    ∀ {l : List BulkPricingTier} (acc : Option BulkPricingTier),
      (∀ t ∈ l, tierApplicableB t q = false) → findApplicableTier q l acc = acc
  | [], _, _ => rfl
  | t :: rest, acc, h => by
    have ht := h t (List.mem_cons_self _ _)
    unfold tierApplicableB at ht
    rw [findApplicableTier]
    by_cases hmin : t.min_quantity ≤ q
    · rw [if_pos hmin]
      cases hmax : t.max_quantity with
      | none => rw [hmax] at ht; simp [hmin] at ht
      | some m =>
        rw [hmax] at ht
        dsimp only
        by_cases hm : q ≤ m
        · simp [hmin, hm] at ht
        · rw [if_neg hm]
          exact findApplicableTier_of_none acc (fun t' ht' => h t' (List.mem_cons_of_mem _ ht'))
    · rw [if_neg hmin]

/-- C3 counterexample: with tiers `[1-10 @ 5, 11-50 @ 4.5]` and quantity 60,
no tier is strictly applicable yet both tiers have `min_quantity ≤ 60`; the
claim's fallback rule predicts the last such tier's price (`4.5`, the
`11-50` tier), but `calculate_price_for_quantity` returns the first tier's
price `5`. -/
theorem C3_counterexample :
    ((sortTiers [⟨1, 1, some 10, 5⟩, ⟨1, 11, some 50, 9/2⟩]).filter
        (fun t => t.min_quantity ≤ 60)).getLast? = some ⟨1, 11, some 50, 9/2⟩ ∧
    calculate_price_for_quantity [⟨1, 1, some 10, 5⟩, ⟨1, 11, some 50, 9/2⟩] 60 = some 5 ∧
    calculate_price_for_quantity [⟨1, 1, some 10, 5⟩, ⟨1, 11, some 50, 9/2⟩] 60 ≠
      some (9/2) := by
  refine ⟨?_, ?_, ?_⟩ <;>
    norm_num +decide [calculate_price_for_quantity, sortTiers, insertTier, findApplicableTier,
      List.filter, List.foldl, List.getLast?, List.getLast]

/-- C3 (amended): for every non-empty tier list and quantity such that no
tier is applicable under the strict range check but at least one tier has
`min_quantity ≤ quantity`, the resolver returns the price of the FIRST tier
in `min_quantity`-ascending order (the `sorted_tiers[0]` fallback), not the
last tier whose `min_quantity ≤ quantity`. -/
theorem C3_first_tier_fallback (ts : List BulkPricingTier) (q : Nat)
    (hne : ts ≠ [])
    (hnone : ∀ t ∈ ts, tierApplicableB t q = false)
    (hsome : ∃ t ∈ ts, t.min_quantity ≤ q) :
    ∃ first rest, sortTiers ts = first :: rest ∧
      calculate_price_for_quantity ts q = some first.price_per_unit := by
  cases hs : sortTiers ts with
  | nil =>
    have := length_sortTiers ts
    rw [hs] at this
    exact absurd (List.length_eq_zero.mp this.symm) hne
  | cons first rest =>
    refine ⟨first, rest, rfl, ?_⟩
    unfold calculate_price_for_quantity
    rw [hs]
    have hnone' : ∀ t ∈ first :: rest, tierApplicableB t q = false := by
      intro t ht
      exact hnone t (mem_sortTiers.mp (hs ▸ ht))
    dsimp only
    rw [findApplicableTier_of_none none hnone']

/-! ## Claim C4: per-window atomicity of the sweep -/

/-- C4 (code evidence): per-window processing is NOT atomic.  Store: window 7
is open and expired; order 101 (product 1, qty 10, buyer 11) and order 102
(product 2, qty 5, buyer 12) belong to it; product 2 has no product row, so
the second product group's `scalar_one()` raises mid-window after group 1 was
already settled.  The `except` handler only logs and continues, and the
sweep's single `db.commit()` then persists the partial work: order 101 is
repriced and paid, buyer 11 is debited 50, yet order 102 is untouched and
window 7 is still `open` with its totals unset — contradicting the claimed
"window state left entirely unchanged" semantics. -/
theorem C4_partial_commit_on_fault :
    (process_bulk_windows
      ⟨[⟨11, "u11"⟩, ⟨12, "u12"⟩],
       [⟨11, 100, true, 0⟩, ⟨12, 100, true, 0⟩],
       [],
       [⟨1, 2, true, 1⟩],
       [⟨1, 1, none, 5⟩],
       [⟨101, 11, 2, 1, 10, 3, 30, .bulk_order, .pending, none, some 7⟩,
        ⟨102, 12, 2, 2, 5, 3, 15, .bulk_order, .pending, none, some 7⟩],
       [⟨7, 11, 100, .open, 0, 0⟩],
       []⟩ 200).1 =
      ⟨[⟨11, "u11"⟩, ⟨12, "u12"⟩],
       [⟨11, 50, true, 0⟩, ⟨12, 100, true, 0⟩],
       [],
       [⟨1, 2, true, 1⟩],
       [⟨1, 1, none, 5⟩],
       [⟨101, 11, 2, 1, 10, 5, 50, .bulk_order, .paid, none, some 7⟩,
        ⟨102, 12, 2, 2, 5, 3, 15, .bulk_order, .pending, none, some 7⟩],
       [⟨7, 11, 100, .open, 0, 0⟩],
       []⟩ := by
  norm_num +decide [process_bulk_windows, selectedWindowIds, processWindowStep, ordersOfWindow,
    firstOccurrences, processGroups, processGroup, calculate_price_for_quantity, sortTiers,
    insertTier, findApplicableTier, settleOrder, settlePayStatus, settleUpd, debitUpd,
    updateFirst, finalizeWindow, finalizeUpd, List.find?, List.filter, List.foldl, List.map,
    List.sum, List.isEmpty]

/-- Witness for the amended C3 at tiers `[1-10 @ 5, 11-50 @ 4.5]`, quantity 60. -/
theorem C3_first_tier_fallback_witness :
    ∃ first rest, sortTiers [⟨1, 1, some 10, 5⟩, ⟨1, 11, some 50, 9/2⟩] = first :: rest ∧
      calculate_price_for_quantity [⟨1, 1, some 10, 5⟩, ⟨1, 11, some 50, 9/2⟩] 60 =
        some first.price_per_unit :=
  C3_first_tier_fallback _ 60 (by simp) (by decide) (by decide)

/-! ## Claims C6 and C7: payment reconciliation -/

/-- C7: for every confirmation whose supplied signature differs from the
HMAC-SHA256 of `"gateway_order_id|gateway_payment_id"` under the shared
secret, `verify_payment` marks the Payment `failed`, returns
`InvalidSignature`, and performs no credit: the vendor and supplier balance
tables after the call equal those before it. -/
theorem C7_invalid_signature_no_credit (hmacSha256 : String → String → String)
    (secret : String) (db : DB) (uid : String) (role : Role) (vd : PaymentVerification)
    (user : UserProfile) (payment : Payment)
    (hu : db.user_profiles.find? (fun u => u.user_id == uid) = some user)
    (hpay : db.payments.find? (fun p =>
      p.razorpay_order_id == vd.razorpay_order_id && p.user_id == user.id) = some payment)
    (hpend : payment.status = .pending)
    (hsig : hmacSha256 secret (vd.razorpay_order_id ++ "|" ++ vd.razorpay_payment_id) ≠
      vd.razorpay_signature) :
    (verify_payment hmacSha256 secret db uid role vd).2 = .error .invalidSignature ∧
    (verify_payment hmacSha256 secret db uid role vd).1.vendors = db.vendors ∧
    (verify_payment hmacSha256 secret db uid role vd).1.suppliers = db.suppliers ∧
    (verify_payment hmacSha256 secret db uid role vd).1.payments.find? (fun p =>
        p.razorpay_order_id == vd.razorpay_order_id && p.user_id == user.id) =
      some { payment with status := .failed } := by
  unfold verify_payment
  rw [hu]
  dsimp only
  rw [hpay]
  dsimp only
  rw [if_neg (by simp [hpend])]
  rw [if_pos hsig]
  refine ⟨rfl, rfl, rfl, ?_⟩
  show (updateFirst _ (fun p => { p with status := PayStatus.failed }) db.payments).find? _ = _
  rw [find?_updateFirst_self (f := fun p => { p with status := PayStatus.failed })
    (fun a ha => ha) db.payments, hpay]
  rfl

/-- Forward evaluation of `verify_payment` on a pending payment with a
matching signature and a vendor account: payment completed, balance credited. -/
theorem verify_payment_success (hmacSha256 : String → String → String)
    (secret : String) (db : DB) (uid : String) (vd : PaymentVerification)
    (user : UserProfile) (payment : Payment) (v : VendorProfile)
    (hu : db.user_profiles.find? (fun u => u.user_id == uid) = some user)
    (hpay : db.payments.find? (fun p =>
      p.razorpay_order_id == vd.razorpay_order_id && p.user_id == user.id) = some payment)
    (hpend : payment.status = .pending)
    (hsig : hmacSha256 secret (vd.razorpay_order_id ++ "|" ++ vd.razorpay_payment_id) =
      vd.razorpay_signature)
    (hv : db.vendors.find? (fun x => x.user_profile_id == user.id) = some v) :
    verify_payment hmacSha256 secret db uid .vendor vd =
      ({ db with
          payments := updateFirst (fun p => p.razorpay_order_id == vd.razorpay_order_id && p.user_id == user.id) (completePayment vd) db.payments,
          vendors := updateFirst (fun x => x.user_profile_id == user.id) (fun x => { x with balance := x.balance + payment.amount }) db.vendors },
       .ok (v.balance + payment.amount)) := by
  unfold verify_payment
  rw [hu]
  dsimp only
  rw [hpay]
  dsimp only
  rw [if_neg (by simp [hpend])]
  rw [if_neg (by simp [hsig])]
  simp only [hv]

/-- C6: payment verification credits the ledger at most once per Payment.
A first successful `verify_payment` marks the Payment `completed` and adds
`payment.amount` to the account balance once, and a second call with the same
confirmation finds the Payment no longer `pending` and fails
`AlreadyProcessed` with the store unchanged — so two calls credit exactly
once. -/
theorem C6_verify_credits_once (hmacSha256 : String → String → String)
    (secret : String) (db : DB) (uid : String) (vd : PaymentVerification)
    (user : UserProfile) (payment : Payment) (v : VendorProfile)
    (hu : db.user_profiles.find? (fun u => u.user_id == uid) = some user)
    (hpay : db.payments.find? (fun p =>
      p.razorpay_order_id == vd.razorpay_order_id && p.user_id == user.id) = some payment)
    (hpend : payment.status = .pending)
    (hsig : hmacSha256 secret (vd.razorpay_order_id ++ "|" ++ vd.razorpay_payment_id) =
      vd.razorpay_signature)
    (hv : db.vendors.find? (fun x => x.user_profile_id == user.id) = some v) :
    (verify_payment hmacSha256 secret db uid .vendor vd).2 =
      .ok (v.balance + payment.amount) ∧
    (verify_payment hmacSha256 secret db uid .vendor vd).1.vendors.find?
        (fun x => x.user_profile_id == user.id) =
      some { v with balance := v.balance + payment.amount } ∧
    (verify_payment hmacSha256 secret db uid .vendor vd).1.payments.find? (fun p =>
        p.razorpay_order_id == vd.razorpay_order_id && p.user_id == user.id) =
      some (completePayment vd payment) ∧
    verify_payment hmacSha256 secret (verify_payment hmacSha256 secret db uid .vendor vd).1
        uid .vendor vd =
      ((verify_payment hmacSha256 secret db uid .vendor vd).1,
       .error .alreadyProcessed) := by
  have hspec := verify_payment_success hmacSha256 secret db uid vd user payment v
    hu hpay hpend hsig hv
  rw [hspec]
  refine ⟨rfl, ?_, ?_, ?_⟩
  · show (updateFirst _ (fun x => { x with balance := x.balance + payment.amount })
        db.vendors).find? _ = _
    rw [find?_updateFirst_self (f := fun x => { x with balance := x.balance + payment.amount })
      (fun a ha => ha) db.vendors, hv]
    rfl
  · have hfind : (updateFirst (fun p =>
          p.razorpay_order_id == vd.razorpay_order_id && p.user_id == user.id)
          (completePayment vd) db.payments).find? (fun p =>
          p.razorpay_order_id == vd.razorpay_order_id && p.user_id == user.id) =
        (db.payments.find? (fun p =>
          p.razorpay_order_id == vd.razorpay_order_id && p.user_id == user.id)).map
          (completePayment vd) :=
      find?_updateFirst_self
        (p := fun p => p.razorpay_order_id == vd.razorpay_order_id && p.user_id == user.id)
        (f := completePayment vd) (fun a ha => ha) db.payments
    show (updateFirst _ (completePayment vd) db.payments).find? _ = _
    rw [hfind, hpay]
    rfl
  · have hfind : (updateFirst (fun p =>
          p.razorpay_order_id == vd.razorpay_order_id && p.user_id == user.id)
          (completePayment vd) db.payments).find? (fun p =>
          p.razorpay_order_id == vd.razorpay_order_id && p.user_id == user.id) =
        (db.payments.find? (fun p =>
          p.razorpay_order_id == vd.razorpay_order_id && p.user_id == user.id)).map
          (completePayment vd) :=
      find?_updateFirst_self
        (p := fun p => p.razorpay_order_id == vd.razorpay_order_id && p.user_id == user.id)
        (f := completePayment vd) (fun a ha => ha) db.payments
    unfold verify_payment
    dsimp only
    rw [hu]
    dsimp only
    rw [hfind, hpay]
    rw [show Option.map (completePayment vd) (some payment) = some (completePayment vd payment)
      from rfl]
    dsimp only
    rw [if_pos (by simp [completePayment])]

/-- Witness for C7 at a concrete store and a tampered signature. -/
theorem C7_invalid_signature_no_credit_witness :
    (verify_payment (fun _ _ => "good") "sec"
        ⟨[⟨1, "u"⟩], [⟨1, 10, true, 0⟩], [], [], [], [], [],
         [⟨1, 1, 50, "o1", none, none, .pending⟩]⟩ "u" .vendor ⟨"o1", "p1", "bad"⟩).2 =
      .error .invalidSignature ∧
    (verify_payment (fun _ _ => "good") "sec"
        ⟨[⟨1, "u"⟩], [⟨1, 10, true, 0⟩], [], [], [], [], [],
         [⟨1, 1, 50, "o1", none, none, .pending⟩]⟩ "u" .vendor ⟨"o1", "p1", "bad"⟩).1.vendors =
      [⟨1, 10, true, 0⟩] ∧
    (verify_payment (fun _ _ => "good") "sec"
        ⟨[⟨1, "u"⟩], [⟨1, 10, true, 0⟩], [], [], [], [], [],
         [⟨1, 1, 50, "o1", none, none, .pending⟩]⟩ "u" .vendor ⟨"o1", "p1", "bad"⟩).1.suppliers =
      [] ∧
    (verify_payment (fun _ _ => "good") "sec"
        ⟨[⟨1, "u"⟩], [⟨1, 10, true, 0⟩], [], [], [], [], [],
         [⟨1, 1, 50, "o1", none, none, .pending⟩]⟩ "u" .vendor
        ⟨"o1", "p1", "bad"⟩).1.payments.find? (fun p =>
          p.razorpay_order_id == "o1" && p.user_id == 1) =
      some ⟨1, 1, 50, "o1", none, none, .failed⟩ :=
  C7_invalid_signature_no_credit (fun _ _ => "good") "sec" _ "u" .vendor ⟨"o1", "p1", "bad"⟩
    ⟨1, "u"⟩ ⟨1, 1, 50, "o1", none, none, .pending⟩ (by decide) (by decide) rfl (by decide)

/-- Witness for C6 at a concrete store and a matching signature. -/
theorem C6_verify_credits_once_witness :
    (verify_payment (fun _ _ => "good") "sec"
        ⟨[⟨1, "u"⟩], [⟨1, 10, true, 0⟩], [], [], [], [], [],
         [⟨1, 1, 50, "o1", none, none, .pending⟩]⟩ "u" .vendor ⟨"o1", "p1", "good"⟩).2 =
      .ok ((10 : ℚ) + 50) ∧
    (verify_payment (fun _ _ => "good") "sec"
        ⟨[⟨1, "u"⟩], [⟨1, 10, true, 0⟩], [], [], [], [], [],
         [⟨1, 1, 50, "o1", none, none, .pending⟩]⟩ "u" .vendor
        ⟨"o1", "p1", "good"⟩).1.vendors.find? (fun x => x.user_profile_id == 1) =
      some ⟨1, (10 : ℚ) + 50, true, 0⟩ ∧
    (verify_payment (fun _ _ => "good") "sec"
        ⟨[⟨1, "u"⟩], [⟨1, 10, true, 0⟩], [], [], [], [], [],
         [⟨1, 1, 50, "o1", none, none, .pending⟩]⟩ "u" .vendor
        ⟨"o1", "p1", "good"⟩).1.payments.find? (fun p =>
          p.razorpay_order_id == "o1" && p.user_id == 1) =
      some (completePayment ⟨"o1", "p1", "good"⟩ ⟨1, 1, 50, "o1", none, none, .pending⟩) ∧
    verify_payment (fun _ _ => "good") "sec"
        (verify_payment (fun _ _ => "good") "sec"
          ⟨[⟨1, "u"⟩], [⟨1, 10, true, 0⟩], [], [], [], [], [],
           [⟨1, 1, 50, "o1", none, none, .pending⟩]⟩ "u" .vendor ⟨"o1", "p1", "good"⟩).1
        "u" .vendor ⟨"o1", "p1", "good"⟩ =
      ((verify_payment (fun _ _ => "good") "sec"
          ⟨[⟨1, "u"⟩], [⟨1, 10, true, 0⟩], [], [], [], [], [],
           [⟨1, 1, 50, "o1", none, none, .pending⟩]⟩ "u" .vendor ⟨"o1", "p1", "good"⟩).1,
       .error .alreadyProcessed) :=
  C6_verify_credits_once (fun _ _ => "good") "sec" _ "u" ⟨"o1", "p1", "good"⟩
    ⟨1, "u"⟩ ⟨1, 1, 50, "o1", none, none, .pending⟩ ⟨1, 10, true, 0⟩
    (by decide) (by decide) rfl rfl (by decide)

/-! ## Claims C8 and C9: order admission with `buy_now` -/

/-- C8: a `buy_now` order with no window reference either fails with
`InsufficientBalance` when the buyer's balance is below the resolved total
(leaving the store unchanged), or debits exactly `total_amount` and creates
the order with `payment_status = paid`. -/
theorem C8_buy_now_settles_immediately (db : DB) (uid : String) (data : OrderCreate)
    (now fid : Nat) (user : UserProfile) (vendor : VendorProfile) (product : Product)
    (price : ℚ)
    (ht : data.order_type = .buy_now) (hw : data.bulk_order_window_id = none)
    (hu : db.user_profiles.find? (fun u => u.user_id == uid) = some user)
    (hv : db.vendors.find? (fun x => x.user_profile_id == user.id) = some vendor)
    (hact : vendor.is_active = true)
    (hp : db.products.find? (fun p => p.id == data.product_id) = some product)
    (hpa : product.is_active = true)
    (hq : product.minimum_order_quantity ≤ data.quantity)
    (hpc : calculate_price_for_quantity (db.tiers.filter (fun t => t.product_id == product.id))
      data.quantity = some price) :
    (vendor.balance < price * (data.quantity : ℚ) →
      create_order db uid data now fid = .error .insufficientBalance) ∧
    (price * (data.quantity : ℚ) ≤ vendor.balance →
      ∃ db' ord, create_order db uid data now fid = .ok (db', ord) ∧
        ord.payment_status = .paid ∧
        ord.price_per_unit = price ∧
        ord.total_amount = price * (data.quantity : ℚ) ∧
        db'.vendors.find? (fun x => x.user_profile_id == user.id) =
          some { vendor with balance := vendor.balance - price * (data.quantity : ℚ) } ∧
        db'.orders = db.orders ++ [ord]) := by
  have hstep : ∀ (k : Except CreateOrderError (DB × Order) → Prop),
      (k (if data.order_type = OrderType.buy_now ∧
            vendor.balance < price * (data.quantity : ℚ)
          then Except.error CreateOrderError.insufficientBalance
          else Except.ok (finishOrder db user product price (price * (data.quantity : ℚ))
            data.quantity data.order_type none now fid))) →
      k (create_order db uid data now fid) := by
    intro k hk
    unfold create_order
    rw [hu]
    dsimp only
    rw [hv]
    dsimp only
    rw [if_neg (by simp [hact])]
    rw [hp]
    dsimp only
    rw [if_neg (by simp [hpa])]
    rw [if_neg (not_lt.mpr hq)]
    rw [hpc]
    dsimp only
    rw [if_neg (by simp [ht])]
    rw [hw]
    exact hk
  constructor
  · intro hlt
    refine hstep (fun r => r = .error .insufficientBalance) ?_
    rw [if_pos ⟨ht, hlt⟩]
  · intro hge
    refine hstep (fun r => ∃ db' ord, r = .ok (db', ord) ∧
      ord.payment_status = .paid ∧ ord.price_per_unit = price ∧
      ord.total_amount = price * (data.quantity : ℚ) ∧
      db'.vendors.find? (fun x => x.user_profile_id == user.id) =
        some { vendor with balance := vendor.balance - price * (data.quantity : ℚ) } ∧
      db'.orders = db.orders ++ [ord]) ?_
    rw [if_neg (fun hc => absurd hc.2 (not_lt.mpr hge))]
    refine ⟨(finishOrder db user product price (price * (data.quantity : ℚ)) data.quantity
        data.order_type none now fid).1,
      (finishOrder db user product price (price * (data.quantity : ℚ)) data.quantity
        data.order_type none now fid).2, rfl, ?_, ?_, ?_, ?_, finishOrder_orders⟩
    · rw [ht, finishOrder_order_fields]
      simp
    · rw [ht, finishOrder_order_fields]
    · rw [ht, finishOrder_order_fields]
    · rw [ht, finishOrder_vendors_buy_now,
        find?_updateFirst_self (f := fun x =>
          { x with balance := x.balance - price * (data.quantity : ℚ) }) (fun a ha => ha)
          db.vendors, hv]
      rfl

/-- C9: a `buy_now` order that supplies a valid open, unexpired window is
still subject to the insufficient-balance check on the single-order-priced
total, even though on success the order is converted to `bulk_order`, no
balance is debited, and `payment_status` stays `pending`. -/
theorem C9_buy_now_with_window_checks_balance (db : DB) (uid : String)
    (data : OrderCreate) (now fid wid : Nat) (user : UserProfile)
    (vendor : VendorProfile) (product : Product) (bw : BulkOrderWindow) (price : ℚ)
    (ht : data.order_type = .buy_now) (hwid : data.bulk_order_window_id = some wid)
    (hu : db.user_profiles.find? (fun u => u.user_id == uid) = some user)
    (hv : db.vendors.find? (fun x => x.user_profile_id == user.id) = some vendor)
    (hact : vendor.is_active = true)
    (hp : db.products.find? (fun p => p.id == data.product_id) = some product)
    (hpa : product.is_active = true)
    (hq : product.minimum_order_quantity ≤ data.quantity)
    (hpc : calculate_price_for_quantity (db.tiers.filter (fun t => t.product_id == product.id))
      data.quantity = some price)
    (hwf : db.windows.find? (fun w => w.id == wid) = some bw)
    (hst : bw.status = .open)
    (hend : now ≤ bw.window_end_time) :
    (vendor.balance < price * (data.quantity : ℚ) →
      create_order db uid data now fid = .error .insufficientBalance) ∧
    (price * (data.quantity : ℚ) ≤ vendor.balance →
      ∃ db' ord, create_order db uid data now fid = .ok (db', ord) ∧
        ord.order_type = .bulk_order ∧
        ord.payment_status = .pending ∧
        ord.bulk_order_window_id = some wid ∧
        db'.vendors = db.vendors) := by
  have hstep : ∀ (k : Except CreateOrderError (DB × Order) → Prop),
      (k (if data.order_type = OrderType.buy_now ∧
            vendor.balance < price * (data.quantity : ℚ)
          then Except.error CreateOrderError.insufficientBalance
          else Except.ok (finishOrder db user product price (price * (data.quantity : ℚ))
            data.quantity OrderType.bulk_order (some wid) now fid))) →
      k (create_order db uid data now fid) := by
    intro k hk
    unfold create_order
    rw [hu]
    dsimp only
    rw [hv]
    dsimp only
    rw [if_neg (by simp [hact])]
    rw [hp]
    dsimp only
    rw [if_neg (by simp [hpa])]
    rw [if_neg (not_lt.mpr hq)]
    rw [hpc]
    dsimp only
    rw [if_neg (by simp [ht])]
    rw [hwid]
    dsimp only
    rw [hwf]
    dsimp only
    rw [if_neg (c := bw.status ≠ WindowStatus.open) (by simp [hst])]
    rw [if_neg (not_lt.mpr hend)]
    exact hk
  constructor
  · intro hlt
    refine hstep (fun r => r = .error .insufficientBalance) ?_
    rw [if_pos ⟨ht, hlt⟩]
  · intro hge
    refine hstep (fun r => ∃ db' ord, r = .ok (db', ord) ∧
      ord.order_type = .bulk_order ∧ ord.payment_status = .pending ∧
      ord.bulk_order_window_id = some wid ∧ db'.vendors = db.vendors) ?_
    rw [if_neg (fun hc => absurd hc.2 (not_lt.mpr hge))]
    refine ⟨(finishOrder db user product price (price * (data.quantity : ℚ)) data.quantity
        OrderType.bulk_order (some wid) now fid).1,
      (finishOrder db user product price (price * (data.quantity : ℚ)) data.quantity
        OrderType.bulk_order (some wid) now fid).2, rfl, ?_, ?_, ?_, ?_⟩
    · rw [finishOrder_order_fields]
    · rw [finishOrder_order_fields]
      simp
    · rw [finishOrder_order_fields]
    · exact finishOrder_vendors_other (by simp)

/-- Witness for C8: Scenario A — tiers `[1-10 @ 5, 11-50 @ 4.5, 51+ @ 4]`,
quantity 30 bought `buy_now` with balance 200 yields price 4.5, total 135,
`payment_status = paid`, and balance 65. -/
theorem C8_buy_now_settles_immediately_witness :
    ∃ db' ord, create_order
        ⟨[⟨1, "u1"⟩], [⟨1, 200, true, 0⟩], [], [⟨1, 2, true, 1⟩],
         [⟨1, 1, some 10, 5⟩, ⟨1, 11, some 50, 9/2⟩, ⟨1, 51, none, 4⟩], [], [], []⟩
        "u1" ⟨1, 30, .buy_now, none⟩ 0 50 = .ok (db', ord) ∧
      ord.payment_status = .paid ∧
      ord.price_per_unit = 9/2 ∧
      ord.total_amount = 135 ∧
      db'.vendors.find? (fun x => x.user_profile_id == 1) = some ⟨1, 65, true, 0⟩ := by
  obtain ⟨h1, h2⟩ := C8_buy_now_settles_immediately
    ⟨[⟨1, "u1"⟩], [⟨1, 200, true, 0⟩], [], [⟨1, 2, true, 1⟩],
     [⟨1, 1, some 10, 5⟩, ⟨1, 11, some 50, 9/2⟩, ⟨1, 51, none, 4⟩], [], [], []⟩
    "u1" ⟨1, 30, .buy_now, none⟩ 0 50 ⟨1, "u1"⟩ ⟨1, 200, true, 0⟩ ⟨1, 2, true, 1⟩ (9/2)
    rfl rfl (by decide) (by decide) rfl (by decide) rfl (by decide)
    (by norm_num +decide [calculate_price_for_quantity, sortTiers, insertTier,
      findApplicableTier, List.filter, List.foldl])
  obtain ⟨db', ord, hok, hpaid, hpr, htot, hvf, _⟩ := h2 (by norm_num)
  refine ⟨db', ord, hok, hpaid, ?_, ?_, ?_⟩
  · rw [hpr]
  · rw [htot]; norm_num
  · rw [hvf]; norm_num

/-- Witness for C9: the same buyer joining an open unexpired window with a
`buy_now` request gets a pending `bulk_order` with no debit. -/
theorem C9_buy_now_with_window_checks_balance_witness :
    ∃ db' ord, create_order
        ⟨[⟨1, "u1"⟩], [⟨1, 200, true, 0⟩], [], [⟨1, 2, true, 1⟩],
         [⟨1, 1, some 10, 5⟩, ⟨1, 11, some 50, 9/2⟩, ⟨1, 51, none, 4⟩], [],
         [⟨7, 1, 100, .open, 0, 0⟩], []⟩
        "u1" ⟨1, 30, .buy_now, some 7⟩ 50 51 = .ok (db', ord) ∧
      ord.order_type = .bulk_order ∧
      ord.payment_status = .pending ∧
      ord.bulk_order_window_id = some 7 ∧
      db'.vendors = [⟨1, 200, true, 0⟩] := by
  obtain ⟨h1, h2⟩ := C9_buy_now_with_window_checks_balance
    ⟨[⟨1, "u1"⟩], [⟨1, 200, true, 0⟩], [], [⟨1, 2, true, 1⟩],
     [⟨1, 1, some 10, 5⟩, ⟨1, 11, some 50, 9/2⟩, ⟨1, 51, none, 4⟩], [],
     [⟨7, 1, 100, .open, 0, 0⟩], []⟩
    "u1" ⟨1, 30, .buy_now, some 7⟩ 50 51 7 ⟨1, "u1"⟩ ⟨1, 200, true, 0⟩ ⟨1, 2, true, 1⟩
    ⟨7, 1, 100, .open, 0, 0⟩ (9/2)
    rfl rfl (by decide) (by decide) rfl (by decide) rfl (by decide)
    (by norm_num +decide [calculate_price_for_quantity, sortTiers, insertTier,
      findApplicableTier, List.filter, List.foldl])
    (by decide) rfl (by decide)
  obtain ⟨db', ord, hok, htype, hpend, hwin, hvend⟩ := h2 (by norm_num)
  exact ⟨db', ord, hok, htype, hpend, hwin, hvend⟩

/-! ## Characterizing the settlement fold of one window (claims C1, C10, C5) -/

theorem eq_of_mem_of_nodup_key {α β} [DecidableEq β] (key : α → β) :
    ∀ {l : List α}, ((l.map key).Nodup) → ∀ {a b : α}, a ∈ l → b ∈ l →
      key a = key b → a = b
  | [], _, a, _, ha, _, _ => absurd ha (List.not_mem_nil a)
  | x :: xs, hnd, a, b, ha, hb, hk => by
    rw [List.map_cons, List.nodup_cons] at hnd
    rcases List.mem_cons.mp ha with rfl | ha' <;> rcases List.mem_cons.mp hb with rfl | hb'
    · rfl
    · refine absurd ?_ hnd.1
      rw [hk]
      exact List.mem_map_of_mem key hb'
    · refine absurd ?_ hnd.1
      rw [← hk]
      exact List.mem_map_of_mem key ha'
    · exact eq_of_mem_of_nodup_key key hnd.2 ha' hb' hk

theorem settleOrder_find?_order_other (db : DB) (P : ℚ) (y : Order) {k : Nat}
    (hk : y.id ≠ k) :
    (settleOrder db P y).orders.find? (fun o2 => o2.id == k) =
      db.orders.find? (fun o2 => o2.id == k) := by
  rw [settleOrder_orders_def]
  refine find?_updateFirst_other (p := fun o2 => o2.id == y.id) (q := fun o2 => o2.id == k)
    (f := settleUpd db P y) (fun a => rfl) ?_ db.orders
  intro a ha
  have : a.id = y.id := by simpa using ha
  simp [this, hk]

theorem settleOrder_find?_order_self (db : DB) (P : ℚ) (y : Order) :
    (settleOrder db P y).orders.find? (fun o2 => o2.id == y.id) =
      (db.orders.find? (fun o2 => o2.id == y.id)).map (settleUpd db P y) := by
  rw [settleOrder_orders_def]
  exact find?_updateFirst_self (p := fun o2 => o2.id == y.id) (f := settleUpd db P y)
    (fun a ha => ha) db.orders

theorem settleOrder_find?_vendor_other (db : DB) (P : ℚ) (y : Order) {b : Nat}
    (hb : y.buyer_id ≠ b) :
    (settleOrder db P y).vendors.find? (fun v => v.user_profile_id == b) =
      db.vendors.find? (fun v => v.user_profile_id == b) := by
  rw [settleOrder_vendors_def]
  split
  · refine find?_updateFirst_other (p := fun v2 => v2.user_profile_id == y.buyer_id)
      (q := fun v => v.user_profile_id == b) (f := debitUpd (P * (y.quantity : ℚ)))
      (fun a => rfl) ?_ db.vendors
    intro a ha
    have : a.user_profile_id = y.buyer_id := by simpa using ha
    simp [this, hb]
  · rfl

theorem settleOrder_find?_vendor_self (db : DB) (P : ℚ) (y : Order) :
    (settleOrder db P y).vendors.find? (fun v => v.user_profile_id == y.buyer_id) =
      (match db.vendors.find? (fun v => v.user_profile_id == y.buyer_id) with
       | some v => some (if P * (y.quantity : ℚ) ≤ v.balance
           then debitUpd (P * (y.quantity : ℚ)) v else v)
       | none => none) := by
  rw [settleOrder_vendors_def]
  cases hf : db.vendors.find? (fun v => v.user_profile_id == y.buyer_id) with
  | none =>
    rw [if_neg]
    · exact hf
    · intro hpaid
      rcases settlePayStatus_paid_iff.mp hpaid with ⟨v, hv, _⟩
      rw [hf] at hv
      exact absurd hv (by simp)
  | some v =>
    by_cases hle : P * (y.quantity : ℚ) ≤ v.balance
    · rw [if_pos (settlePayStatus_paid_iff.mpr ⟨v, hf, hle⟩)]
      rw [find?_updateFirst_self (p := fun v => v.user_profile_id == y.buyer_id)
        (f := debitUpd (P * (y.quantity : ℚ))) (fun a ha => ha) db.vendors, hf]
      simp [hle]
    · rw [if_neg]
      · rw [hf]
        simp [hle]
      · intro hpaid
        rcases settlePayStatus_paid_iff.mp hpaid with ⟨v', hv', hle'⟩
        rw [hf] at hv'
        rw [Option.some_inj] at hv'
        subst hv'
        exact hle hle'

theorem settleFold_find?_order_other (P : ℚ) {k : Nat} :
    ∀ (g : List Order) (db : DB), (∀ y ∈ g, y.id ≠ k) →
      (g.foldl (fun d x => settleOrder d P x) db).orders.find? (fun o2 => o2.id == k) =
        db.orders.find? (fun o2 => o2.id == k)
  | [], _, _ => rfl
  | x :: rest, db, h => by
    rw [List.foldl_cons,
      settleFold_find?_order_other P rest (settleOrder db P x)
        (fun y hy => h y (List.mem_cons_of_mem _ hy)),
      settleOrder_find?_order_other db P x (h x (List.mem_cons_self _ _))]

theorem settleFold_find?_vendor_other (P : ℚ) {b : Nat} :
    ∀ (g : List Order) (db : DB), (∀ y ∈ g, y.buyer_id ≠ b) →
      (g.foldl (fun d x => settleOrder d P x) db).vendors.find? (fun v => v.user_profile_id == b) =
        db.vendors.find? (fun v => v.user_profile_id == b)
  | [], _, _ => rfl
  | x :: rest, db, h => by
    rw [List.foldl_cons,
      settleFold_find?_vendor_other P rest (settleOrder db P x)
        (fun y hy => h y (List.mem_cons_of_mem _ hy)),
      settleOrder_find?_vendor_other db P x (h x (List.mem_cons_self _ _))]

/-- `settlePayStatus` only reads the buyer's row. -/
theorem settlePayStatus_congr {vs vs' : List VendorProfile} {t : ℚ} {b : Nat}
    (h : vs.find? (fun v => v.user_profile_id == b) =
      vs'.find? (fun v => v.user_profile_id == b)) :
    settlePayStatus vs t b = settlePayStatus vs' t b := by
  unfold settlePayStatus
  rw [h]

/-- Settling one product group at unit price `P`: the effect on a member
order with a buyer and an id unique in the group. -/
theorem settleFold_target (P : ℚ) :
    ∀ (g : List Order) (db : DB) (o : Order), o ∈ g →
      ((g.map Order.id).Nodup) → ((g.map Order.buyer_id).Nodup) →
      (g.foldl (fun d x => settleOrder d P x) db).orders.find? (fun o2 => o2.id == o.id) =
        (db.orders.find? (fun o2 => o2.id == o.id)).map (settleUpd db P o) ∧
      (g.foldl (fun d x => settleOrder d P x) db).vendors.find?
          (fun v => v.user_profile_id == o.buyer_id) =
        (match db.vendors.find? (fun v => v.user_profile_id == o.buyer_id) with
         | some v => some (if P * (o.quantity : ℚ) ≤ v.balance
             then debitUpd (P * (o.quantity : ℚ)) v else v)
         | none => none)
  | [], _, o, ho, _, _ => absurd ho (List.not_mem_nil o)
  | x :: rest, db, o, ho, hid, hbuy => by
    rw [List.map_cons, List.nodup_cons] at hid hbuy
    rcases List.mem_cons.mp ho with rfl | ho'
    · have hid' : ∀ y ∈ rest, y.id ≠ o.id := by
        intro y hy hc
        exact hid.1 (hc ▸ List.mem_map_of_mem Order.id hy)
      have hbuy' : ∀ y ∈ rest, y.buyer_id ≠ o.buyer_id := by
        intro y hy hc
        exact hbuy.1 (hc ▸ List.mem_map_of_mem Order.buyer_id hy)
      rw [List.foldl_cons]
      constructor
      · rw [settleFold_find?_order_other P rest (settleOrder db P o) hid',
          settleOrder_find?_order_self db P o]
      · rw [settleFold_find?_vendor_other P rest (settleOrder db P o) hbuy',
          settleOrder_find?_vendor_self db P o]
    · have hxid : x.id ≠ o.id := by
        intro hc
        exact hid.1 (hc ▸ List.mem_map_of_mem Order.id ho')
      have hxbuy : x.buyer_id ≠ o.buyer_id := by
        intro hc
        exact hbuy.1 (hc ▸ List.mem_map_of_mem Order.buyer_id ho')
      rw [List.foldl_cons]
      obtain ⟨ih1, ih2⟩ := settleFold_target P rest (settleOrder db P x) o ho' hid.2 hbuy.2
      have hvf : (settleOrder db P x).vendors.find? (fun v => v.user_profile_id == o.buyer_id) =
          db.vendors.find? (fun v => v.user_profile_id == o.buyer_id) :=
        settleOrder_find?_vendor_other db P x hxbuy
      have hupd : settleUpd (settleOrder db P x) P o = settleUpd db P o := by
        funext o2
        unfold settleUpd
        rw [settlePayStatus_congr hvf]
      constructor
      · rw [ih1, settleOrder_find?_order_other db P x hxid, hupd]
      · rw [ih2, hvf]

theorem processGroup_eq (db : DB) (pid : Nat) (g : List Order)
    (hp : (db.products.find? (fun pr => pr.id == pid)).isSome)
    (ht : db.tiers.filter (fun t => t.product_id == pid) ≠ []) :
    ∃ P, calculate_price_for_quantity (db.tiers.filter (fun t => t.product_id == pid))
        ((g.map (fun o => o.quantity)).sum) = some P ∧
      processGroup db pid g = some (g.foldl (fun d x => settleOrder d P x) db) := by
  unfold processGroup
  cases hpp : db.products.find? (fun pr => pr.id == pid) with
  | none => rw [hpp] at hp; exact absurd hp (by simp)
  | some prod =>
    dsimp only
    have hsome := calculate_price_isSome ht ((g.map (fun o => o.quantity)).sum)
    cases hc : calculate_price_for_quantity (db.tiers.filter (fun t => t.product_id == pid))
        ((g.map (fun o => o.quantity)).sum) with
    | none => rw [hc] at hsome; exact absurd hsome (by simp)
    | some P => exact ⟨P, rfl, rfl⟩

theorem processGroup_find?_other {db db2 : DB} {pid : Nat} {g : List Order}
    (hgp : processGroup db pid g = some db2)
    {o : Order} (h : ∀ y ∈ g, y.id ≠ o.id ∧ y.buyer_id ≠ o.buyer_id) :
    db2.orders.find? (fun o2 => o2.id == o.id) =
      db.orders.find? (fun o2 => o2.id == o.id) ∧
    db2.vendors.find? (fun v => v.user_profile_id == o.buyer_id) =
      db.vendors.find? (fun v => v.user_profile_id == o.buyer_id) := by
  unfold processGroup at hgp
  cases hpp : db.products.find? (fun pr => pr.id == pid) with
  | none => rw [hpp] at hgp; exact absurd hgp (by simp)
  | some prod =>
  rw [hpp] at hgp
  dsimp only at hgp
  cases hc : calculate_price_for_quantity (db.tiers.filter (fun t => t.product_id == pid))
      ((g.map (fun o => o.quantity)).sum) with
  | none => rw [hc] at hgp; exact absurd hgp (by simp)
  | some P =>
  rw [hc] at hgp
  rw [Option.some_inj] at hgp
  subst hgp
  exact ⟨settleFold_find?_order_other P g db (fun y hy => (h y hy).1),
    settleFold_find?_vendor_other P g db (fun y hy => (h y hy).2)⟩

theorem processGroups_find?_other :
    ∀ (gs : List (Nat × List Order)) (db : DB) {o : Order},
      (∀ pg ∈ gs, ∀ y ∈ pg.2, y.id ≠ o.id ∧ y.buyer_id ≠ o.buyer_id) →
      (processGroups db gs).1.orders.find? (fun o2 => o2.id == o.id) =
        db.orders.find? (fun o2 => o2.id == o.id) ∧
      (processGroups db gs).1.vendors.find? (fun v => v.user_profile_id == o.buyer_id) =
        db.vendors.find? (fun v => v.user_profile_id == o.buyer_id)
  | [], _, _, _ => ⟨rfl, rfl⟩
  | (p, g) :: rest, db, o, h => by
    have heq : processGroups db ((p, g) :: rest) =
        (match processGroup db p g with
         | none => (db, false)
         | some db2 => processGroups db2 rest) := rfl
    rw [heq]
    cases hg : processGroup db p g with
    | none => exact ⟨rfl, rfl⟩
    | some db2 =>
      have h1 := processGroup_find?_other hg (h (p, g) (List.mem_cons_self _ _))
      have h2 := processGroups_find?_other rest db2
        (fun pg hpg => h pg (List.mem_cons_of_mem _ hpg))
      exact ⟨h2.1.trans h1.1, h2.2.trans h1.2⟩

/-- Distinct members of a key-Nodup list have distinct keys. -/
theorem key_ne_of_ne {α β} [DecidableEq β] {key : α → β} {l : List α} {a b : α}
    (hnd : (l.map key).Nodup) (ha : a ∈ l) (hb : b ∈ l) (hne : a ≠ b) :
    key a ≠ key b :=
  fun hk => hne (eq_of_mem_of_nodup_key key hnd ha hb hk)

/-- The settlement of the product groups of one window, seen from one member
order `o`: its group's price resolves from the aggregate quantity, `o`'s row
is rewritten by `settleUpd` (new price, recomputed total, guarded payment
outcome) and its buyer's row is debited exactly when the outcome is paid. -/
theorem processGroups_target :
    ∀ (pids : List Nat) (db0 : DB) (orders : List Order) (o : Order),
      o ∈ orders →
      ((orders.map Order.id).Nodup) → ((orders.map Order.buyer_id).Nodup) →
      pids.Nodup → o.product_id ∈ pids →
      (∀ p ∈ pids, (db0.products.find? (fun pr => pr.id == p)).isSome ∧
        db0.tiers.filter (fun t => t.product_id == p) ≠ []) →
      ∃ P, calculate_price_for_quantity
          (db0.tiers.filter (fun t => t.product_id == o.product_id))
          (((orders.filter (fun y => y.product_id == o.product_id)).map
            (fun y => y.quantity)).sum) = some P ∧
        (processGroups db0 (pids.map (fun p =>
            (p, orders.filter (fun y => y.product_id == p))))).1.orders.find?
            (fun o2 => o2.id == o.id) =
          (db0.orders.find? (fun o2 => o2.id == o.id)).map (settleUpd db0 P o) ∧
        (processGroups db0 (pids.map (fun p =>
            (p, orders.filter (fun y => y.product_id == p))))).1.vendors.find?
            (fun v => v.user_profile_id == o.buyer_id) =
          (match db0.vendors.find? (fun v => v.user_profile_id == o.buyer_id) with
           | some v => some (if P * (o.quantity : ℚ) ≤ v.balance
               then debitUpd (P * (o.quantity : ℚ)) v else v)
           | none => none)
  | [], _, _, o, _, _, _, _, hmem, _ => absurd hmem (List.not_mem_nil _)
  | p :: rest, db0, orders, o, ho, hidnd, hbnd, hpnd, hmem, hfault => by
    rw [List.nodup_cons] at hpnd
    obtain ⟨Pp, hcalcp, hgp⟩ := processGroup_eq db0 p (orders.filter (fun y => y.product_id == p))
      (hfault p (List.mem_cons_self _ _)).1 (hfault p (List.mem_cons_self _ _)).2
    have heq : processGroups db0 ((p :: rest).map (fun q =>
        (q, orders.filter (fun y => y.product_id == q)))) =
        (match processGroup db0 p (orders.filter (fun y => y.product_id == p)) with
         | none => (db0, false)
         | some db2 => processGroups db2 (rest.map (fun q =>
             (q, orders.filter (fun y => y.product_id == q))))) := rfl
    by_cases hpo : o.product_id = p
    · -- o's own group is the head group
      have hoin : o ∈ orders.filter (fun y => y.product_id == p) :=
        List.mem_filter.mpr ⟨ho, by simp [hpo]⟩
      have hgid : ((orders.filter (fun y => y.product_id == p)).map Order.id).Nodup :=
        hidnd.sublist (List.Sublist.map Order.id (List.filter_sublist orders))
      have hgbuy : ((orders.filter (fun y => y.product_id == p)).map Order.buyer_id).Nodup :=
        hbnd.sublist (List.Sublist.map Order.buyer_id (List.filter_sublist orders))
      obtain ⟨hf1, hf2⟩ := settleFold_target Pp (orders.filter (fun y => y.product_id == p))
        db0 o hoin hgid hgbuy
      have hrest : ∀ pg ∈ rest.map (fun q => (q, orders.filter (fun y => y.product_id == q))),
          ∀ y ∈ pg.2, y.id ≠ o.id ∧ y.buyer_id ≠ o.buyer_id := by
        intro pg hpg y hy
        obtain ⟨q, hq, rfl⟩ := List.mem_map.mp hpg
        have hyo : y ∈ orders := List.mem_of_mem_filter hy
        have hyq : y.product_id = q := by simpa using (List.mem_filter.mp hy).2
        have hyne : y ≠ o := by
          intro hc
          subst hc
          exact hpnd.1 ((hyq ▸ hpo ▸ hyq) ▸ (hyq ▸ hq))
        exact ⟨key_ne_of_ne hidnd hyo ho hyne, key_ne_of_ne hbnd hyo ho hyne⟩
      rw [heq, hgp]
      dsimp only
      obtain ⟨hr1, hr2⟩ := processGroups_find?_other
        (rest.map (fun q => (q, orders.filter (fun y => y.product_id == q))))
        ((orders.filter (fun y => y.product_id == p)).foldl
          (fun d x => settleOrder d Pp x) db0) hrest
      rw [hpo]
      exact ⟨Pp, hcalcp, hr1.trans hf1, hr2.trans hf2⟩
    · -- o's group is further down
      have homem : o.product_id ∈ rest := by
        rcases List.mem_cons.mp hmem with h | h
        · exact absurd h hpo
        · exact h
      have hG : ∀ y ∈ orders.filter (fun y => y.product_id == p),
          y.id ≠ o.id ∧ y.buyer_id ≠ o.buyer_id := by
        intro y hy
        have hyo : y ∈ orders := List.mem_of_mem_filter hy
        have hyq : y.product_id = p := by simpa using (List.mem_filter.mp hy).2
        have hyne : y ≠ o := fun hc => hpo (hc ▸ hyq)
        exact ⟨key_ne_of_ne hidnd hyo ho hyne, key_ne_of_ne hbnd hyo ho hyne⟩
      set db1 := (orders.filter (fun y => y.product_id == p)).foldl
        (fun d x => settleOrder d Pp x) db0 with hdb1
      have hframe := processGroup_ledgerFrame hgp
      have hfault1 : ∀ q ∈ rest, (db1.products.find? (fun pr => pr.id == q)).isSome ∧
          db1.tiers.filter (fun t => t.product_id == q) ≠ [] := by
        intro q hq
        rw [hframe.1.2.2.1, hframe.1.2.2.2.1]
        exact hfault q (List.mem_cons_of_mem _ hq)
      obtain ⟨P, hcalc, h1, h2⟩ := processGroups_target rest db1 orders o ho hidnd hbnd
        hpnd.2 homem hfault1
      have hof : db1.orders.find? (fun o2 => o2.id == o.id) =
          db0.orders.find? (fun o2 => o2.id == o.id) :=
        settleFold_find?_order_other Pp _ db0 (fun y hy => (hG y hy).1)
      have hvf : db1.vendors.find? (fun v => v.user_profile_id == o.buyer_id) =
          db0.vendors.find? (fun v => v.user_profile_id == o.buyer_id) :=
        settleFold_find?_vendor_other Pp _ db0 (fun y hy => (hG y hy).2)
      have hupd : settleUpd db1 P o = settleUpd db0 P o := by
        funext o2
        unfold settleUpd
        rw [settlePayStatus_congr hvf]
      rw [heq, hgp]
      dsimp only
      refine ⟨P, ?_, ?_, ?_⟩
      · rw [← hframe.1.2.2.2.1]
        exact hcalc
      · rw [h1, hof, hupd]
      · rw [h2, hvf]

theorem processGroups_ok :
    ∀ (gs : List (Nat × List Order)) (db : DB),
      (∀ pg ∈ gs, (db.products.find? (fun pr => pr.id == pg.1)).isSome ∧
        db.tiers.filter (fun t => t.product_id == pg.1) ≠ []) →
      (processGroups db gs).2 = true
  | [], _, _ => rfl
  | (p, g) :: rest, db, h => by
    obtain ⟨P, _, hgp⟩ := processGroup_eq db p g
      (h (p, g) (List.mem_cons_self _ _)).1 (h (p, g) (List.mem_cons_self _ _)).2
    have heq : processGroups db ((p, g) :: rest) =
        (match processGroup db p g with
         | none => (db, false)
         | some db2 => processGroups db2 rest) := rfl
    rw [heq, hgp]
    set db2 := g.foldl (fun d x => settleOrder d P x) db with hdb2
    have hframe : LedgerFrame db db2 := settleFold_ledgerFrame P g db
    refine processGroups_ok rest db2 ?_
    intro pg hpg
    rw [hframe.2.2.1, hframe.2.2.2.1]
    exact h pg (List.mem_cons_of_mem _ hpg)

theorem ledgerFrame_orders_id {db db2 : DB} (h : LedgerFrame db db2) :
    db2.orders.map Order.id = db.orders.map Order.id := by
  have h1 := h.2.2.2.2.2.1
    (fun o => (o.id, o.buyer_id, o.product_id, o.quantity, o.bulk_order_window_id))
    (fun _ _ _ _ => rfl)
  have h2 := congrArg (List.map (fun t : Nat × Nat × Nat × Nat × Option Nat => t.1)) h1
  rw [List.map_map, List.map_map] at h2
  exact h2

/-- Settling a non-empty window with present products and non-empty tier
lists finalizes it: the step is `finalizeWindow` of the settled state, and
each window order's row and its buyer's row end as `settleFold_target`
dictates, with the group price resolved from the aggregate quantity. -/
theorem processWindowStep_spec (db : DB) (wid : Nat)
    (hne : ordersOfWindow db wid ≠ [])
    (hidnd : (db.orders.map Order.id).Nodup)
    (hbnd : ((ordersOfWindow db wid).map Order.buyer_id).Nodup)
    (hfault : ∀ o ∈ ordersOfWindow db wid,
      (db.products.find? (fun pr => pr.id == o.product_id)).isSome ∧
      db.tiers.filter (fun t => t.product_id == o.product_id) ≠ []) :
    ∃ db2,
      processWindowStep db wid = (finalizeWindow db2 wid
        ((firstOccurrences ((ordersOfWindow db2 wid).map (fun o => o.buyer_id))).length)
        ((((ordersOfWindow db2 wid).filter
            (fun o => o.payment_status == PaymentStatus.paid)).map
          (fun o => o.total_amount)).sum), true) ∧
      LedgerFrame db db2 ∧ db2.windows = db.windows ∧
      (∀ o ∈ ordersOfWindow db wid,
        ∃ P, calculate_price_for_quantity
            (db.tiers.filter (fun t => t.product_id == o.product_id))
            (((ordersOfWindow db wid).filter (fun y => y.product_id == o.product_id)).map
              (fun y => y.quantity)).sum = some P ∧
          db2.orders.find? (fun o2 => o2.id == o.id) = some (settleUpd db P o o) ∧
          db2.vendors.find? (fun v => v.user_profile_id == o.buyer_id) =
            (match db.vendors.find? (fun v => v.user_profile_id == o.buyer_id) with
             | some v => some (if P * (o.quantity : ℚ) ≤ v.balance
                 then debitUpd (P * (o.quantity : ℚ)) v else v)
             | none => none)) := by
  have hfaultp : ∀ p ∈ firstOccurrences ((ordersOfWindow db wid).map
      (fun o => o.product_id)),
      (db.products.find? (fun pr => pr.id == p)).isSome ∧
      db.tiers.filter (fun t => t.product_id == p) ≠ [] := by
    intro p hp
    have hp' := mem_firstOccurrences.mp hp
    obtain ⟨y, hy, hyp⟩ := List.mem_map.mp hp'
    exact hyp ▸ hfault y hy
  have hok := processGroups_ok
    ((firstOccurrences ((ordersOfWindow db wid).map (fun o => o.product_id))).map
      (fun p => (p, (ordersOfWindow db wid).filter (fun o => o.product_id == p)))) db
    (by
      intro pg hpg
      obtain ⟨p, hp, rfl⟩ := List.mem_map.mp hpg
      exact hfaultp p hp)
  unfold processWindowStep
  rw [if_neg (by simp [List.isEmpty_iff, hne])]
  cases hpg : processGroups db
      ((firstOccurrences ((ordersOfWindow db wid).map (fun o => o.product_id))).map
        (fun p => (p, (ordersOfWindow db wid).filter (fun o => o.product_id == p)))) with
  | mk db2 ok =>
    rw [hpg] at hok
    subst hok
    refine ⟨db2, rfl, ?_, ?_, ?_⟩
    · have h := processGroups_ledgerFrame
        ((firstOccurrences ((ordersOfWindow db wid).map (fun o => o.product_id))).map
          (fun p => (p, (ordersOfWindow db wid).filter (fun o => o.product_id == p)))) db
      rw [hpg] at h
      exact h.1
    · have h := processGroups_ledgerFrame
        ((firstOccurrences ((ordersOfWindow db wid).map (fun o => o.product_id))).map
          (fun p => (p, (ordersOfWindow db wid).filter (fun o => o.product_id == p)))) db
      rw [hpg] at h
      exact h.2
    · intro o ho
      have hoid : ((ordersOfWindow db wid).map Order.id).Nodup :=
        hidnd.sublist (List.Sublist.map Order.id (List.filter_sublist db.orders))
      obtain ⟨P, hcalc, h1, h2⟩ := processGroups_target
        (firstOccurrences ((ordersOfWindow db wid).map (fun o => o.product_id)))
        db (ordersOfWindow db wid) o ho hoid hbnd
        (firstOccurrences_nodup _)
        (mem_firstOccurrences.mpr (List.mem_map_of_mem _ ho))
        hfaultp
      rw [hpg] at h1 h2
      refine ⟨P, hcalc, ?_, h2⟩
      rw [h1, find?_eq_some_of_nodup_key Order.id hidnd (List.mem_of_mem_filter ho)]
      rfl

theorem finalizeWindow_orders (db : DB) (wid tp : Nat) (ta : ℚ) :
    (finalizeWindow db wid tp ta).orders = db.orders := rfl

theorem finalizeWindow_vendors (db : DB) (wid tp : Nat) (ta : ℚ) :
    (finalizeWindow db wid tp ta).vendors = db.vendors := rfl

theorem finalizeWindow_windows (db : DB) (wid tp : Nat) (ta : ℚ) :
    (finalizeWindow db wid tp ta).windows =
      updateFirst (fun w => w.id == wid) (finalizeUpd tp ta) db.windows := rfl

/-- C1: for an expired open bulk window processed by the sweep (here the only
selected window), each product group of its orders is repriced to the price
resolved from the group's aggregate quantity; every order gets that unit
price and `total_amount = price * quantity`; an order whose buyer's balance
covers the recomputed total is debited exactly that amount and marked `paid`,
and one whose balance does not cover it is marked `failed` with the buyer's
balance unchanged — and the rest of the window is still settled (the window
ends `finalized`). -/
theorem C1_bulk_settlement (db : DB) (now wid : Nat) (w : BulkOrderWindow)
    (hsel : selectedWindowIds db now = [wid])
    (hw : db.windows.find? (fun x => x.id == wid) = some w)
    (hne : ordersOfWindow db wid ≠ [])
    (hidnd : (db.orders.map Order.id).Nodup)
    (hbnd : ((ordersOfWindow db wid).map Order.buyer_id).Nodup)
    (hfault : ∀ o ∈ ordersOfWindow db wid,
      (db.products.find? (fun pr => pr.id == o.product_id)).isSome ∧
      db.tiers.filter (fun t => t.product_id == o.product_id) ≠ [])
    (o : Order) (ho : o ∈ ordersOfWindow db wid) :
    ∃ P, calculate_price_for_quantity
        (db.tiers.filter (fun t => t.product_id == o.product_id))
        (((ordersOfWindow db wid).filter (fun y => y.product_id == o.product_id)).map
          (fun y => y.quantity)).sum = some P ∧
      (∀ v, db.vendors.find? (fun x => x.user_profile_id == o.buyer_id) = some v →
        (P * (o.quantity : ℚ) ≤ v.balance →
          (process_bulk_windows db now).1.orders.find? (fun o2 => o2.id == o.id) =
            some { o with price_per_unit := P, total_amount := P * (o.quantity : ℚ), payment_status := PaymentStatus.paid } ∧
          (process_bulk_windows db now).1.vendors.find?
              (fun x => x.user_profile_id == o.buyer_id) =
            some { v with balance := v.balance - P * (o.quantity : ℚ) }) ∧
        (v.balance < P * (o.quantity : ℚ) →
          (process_bulk_windows db now).1.orders.find? (fun o2 => o2.id == o.id) =
            some { o with price_per_unit := P, total_amount := P * (o.quantity : ℚ), payment_status := PaymentStatus.failed } ∧
          (process_bulk_windows db now).1.vendors.find?
              (fun x => x.user_profile_id == o.buyer_id) = some v)) ∧
      (∃ w', (process_bulk_windows db now).1.windows.find? (fun x => x.id == wid) =
          some w' ∧ w'.status = .finalized) := by
  obtain ⟨db2, hstep, hframe, hwnd, hper⟩ := processWindowStep_spec db wid hne hidnd hbnd hfault
  have hdb1 : (process_bulk_windows db now).1 = finalizeWindow db2 wid
      ((firstOccurrences ((ordersOfWindow db2 wid).map (fun o => o.buyer_id))).length)
      ((((ordersOfWindow db2 wid).filter
          (fun o => o.payment_status == PaymentStatus.paid)).map
        (fun o => o.total_amount)).sum) := by
    show ((selectedWindowIds db now).foldl _ (db, 0)).1 = _
    rw [hsel, List.foldl_cons, List.foldl_nil]
    dsimp only
    rw [hstep]
  obtain ⟨P, hcalc, h1, h2⟩ := hper o ho
  refine ⟨P, hcalc, ?_, ?_⟩
  · intro v hv
    have hq : settlePayStatus db.vendors (P * (o.quantity : ℚ)) o.buyer_id =
        (if P * (o.quantity : ℚ) ≤ v.balance
         then PaymentStatus.paid else PaymentStatus.failed) := by
      unfold settlePayStatus
      rw [hv]
    constructor
    · intro hle
      constructor
      · rw [hdb1, finalizeWindow_orders, h1]
        simp only [settleUpd, hq, if_pos hle]
      · rw [hdb1, finalizeWindow_vendors, h2, hv]
        dsimp only
        rw [if_pos hle]
        simp [debitUpd]
    · intro hlt
      constructor
      · rw [hdb1, finalizeWindow_orders, h1]
        simp only [settleUpd, hq, if_neg (not_le.mpr hlt)]
      · rw [hdb1, finalizeWindow_vendors, h2, hv]
        dsimp only
        rw [if_neg (not_le.mpr hlt)]
  · rw [hdb1, finalizeWindow_windows]
    refine ⟨finalizeUpd
      ((firstOccurrences ((ordersOfWindow db2 wid).map (fun o => o.buyer_id))).length)
      ((((ordersOfWindow db2 wid).filter
          (fun o => o.payment_status == PaymentStatus.paid)).map
        (fun o => o.total_amount)).sum) w, ?_, rfl⟩
    rw [hwnd, find?_updateFirst_self (p := fun x => x.id == wid)
      (f := finalizeUpd
        ((firstOccurrences ((ordersOfWindow db2 wid).map (fun o => o.buyer_id))).length)
        ((((ordersOfWindow db2 wid).filter
            (fun o => o.payment_status == PaymentStatus.paid)).map
          (fun o => o.total_amount)).sum)) (fun a ha => ha) db.windows, hw]
    rfl


/-- Witness for C1: Scenario B shape — one product, buyers with quantities 15
and 40 (aggregate 55) in window 7; the aggregate resolves the 51+ tier. -/
theorem C1_bulk_settlement_witness :
    ∃ P, calculate_price_for_quantity
        (DB.tiers ⟨[⟨11, "u11"⟩, ⟨13, "u13"⟩], [⟨11, 100, true, 0⟩, ⟨13, 100, true, 0⟩], [], [⟨1, 2, true, 1⟩], [⟨1, 1, some 10, 5⟩, ⟨1, 11, some 50, 9/2⟩, ⟨1, 51, none, 4⟩], [⟨101, 11, 2, 1, 15, 5, 75, .bulk_order, .pending, none, some 7⟩, ⟨103, 13, 2, 1, 40, 5, 200, .bulk_order, .pending, none, some 7⟩], [⟨7, 11, 100, .open, 0, 0⟩], []⟩ |>.filter (fun t => t.product_id == (1 : Nat)))
        (((ordersOfWindow ⟨[⟨11, "u11"⟩, ⟨13, "u13"⟩], [⟨11, 100, true, 0⟩, ⟨13, 100, true, 0⟩], [], [⟨1, 2, true, 1⟩], [⟨1, 1, some 10, 5⟩, ⟨1, 11, some 50, 9/2⟩, ⟨1, 51, none, 4⟩], [⟨101, 11, 2, 1, 15, 5, 75, .bulk_order, .pending, none, some 7⟩, ⟨103, 13, 2, 1, 40, 5, 200, .bulk_order, .pending, none, some 7⟩], [⟨7, 11, 100, .open, 0, 0⟩], []⟩ 7).filter (fun y => y.product_id == (1 : Nat))).map
          (fun y => y.quantity)).sum = some P ∧
      (∀ v, (DB.vendors ⟨[⟨11, "u11"⟩, ⟨13, "u13"⟩], [⟨11, 100, true, 0⟩, ⟨13, 100, true, 0⟩], [], [⟨1, 2, true, 1⟩], [⟨1, 1, some 10, 5⟩, ⟨1, 11, some 50, 9/2⟩, ⟨1, 51, none, 4⟩], [⟨101, 11, 2, 1, 15, 5, 75, .bulk_order, .pending, none, some 7⟩, ⟨103, 13, 2, 1, 40, 5, 200, .bulk_order, .pending, none, some 7⟩], [⟨7, 11, 100, .open, 0, 0⟩], []⟩).find? (fun x => x.user_profile_id == (13 : Nat)) = some v →
        (P * ((40 : Nat) : ℚ) ≤ v.balance →
          (process_bulk_windows ⟨[⟨11, "u11"⟩, ⟨13, "u13"⟩], [⟨11, 100, true, 0⟩, ⟨13, 100, true, 0⟩], [], [⟨1, 2, true, 1⟩], [⟨1, 1, some 10, 5⟩, ⟨1, 11, some 50, 9/2⟩, ⟨1, 51, none, 4⟩], [⟨101, 11, 2, 1, 15, 5, 75, .bulk_order, .pending, none, some 7⟩, ⟨103, 13, 2, 1, 40, 5, 200, .bulk_order, .pending, none, some 7⟩], [⟨7, 11, 100, .open, 0, 0⟩], []⟩ 200).1.orders.find? (fun o2 => o2.id == (103 : Nat)) =
            some { (⟨103, 13, 2, 1, 40, 5, 200, OrderType.bulk_order, PaymentStatus.pending, none, some 7⟩ : Order) with price_per_unit := P, total_amount := P * ((40 : Nat) : ℚ), payment_status := PaymentStatus.paid } ∧
          (process_bulk_windows ⟨[⟨11, "u11"⟩, ⟨13, "u13"⟩], [⟨11, 100, true, 0⟩, ⟨13, 100, true, 0⟩], [], [⟨1, 2, true, 1⟩], [⟨1, 1, some 10, 5⟩, ⟨1, 11, some 50, 9/2⟩, ⟨1, 51, none, 4⟩], [⟨101, 11, 2, 1, 15, 5, 75, .bulk_order, .pending, none, some 7⟩, ⟨103, 13, 2, 1, 40, 5, 200, .bulk_order, .pending, none, some 7⟩], [⟨7, 11, 100, .open, 0, 0⟩], []⟩ 200).1.vendors.find?
              (fun x => x.user_profile_id == (13 : Nat)) =
            some { v with balance := v.balance - P * ((40 : Nat) : ℚ) }) ∧
        (v.balance < P * ((40 : Nat) : ℚ) →
          (process_bulk_windows ⟨[⟨11, "u11"⟩, ⟨13, "u13"⟩], [⟨11, 100, true, 0⟩, ⟨13, 100, true, 0⟩], [], [⟨1, 2, true, 1⟩], [⟨1, 1, some 10, 5⟩, ⟨1, 11, some 50, 9/2⟩, ⟨1, 51, none, 4⟩], [⟨101, 11, 2, 1, 15, 5, 75, .bulk_order, .pending, none, some 7⟩, ⟨103, 13, 2, 1, 40, 5, 200, .bulk_order, .pending, none, some 7⟩], [⟨7, 11, 100, .open, 0, 0⟩], []⟩ 200).1.orders.find? (fun o2 => o2.id == (103 : Nat)) =
            some { (⟨103, 13, 2, 1, 40, 5, 200, OrderType.bulk_order, PaymentStatus.pending, none, some 7⟩ : Order) with price_per_unit := P, total_amount := P * ((40 : Nat) : ℚ), payment_status := PaymentStatus.failed } ∧
          (process_bulk_windows ⟨[⟨11, "u11"⟩, ⟨13, "u13"⟩], [⟨11, 100, true, 0⟩, ⟨13, 100, true, 0⟩], [], [⟨1, 2, true, 1⟩], [⟨1, 1, some 10, 5⟩, ⟨1, 11, some 50, 9/2⟩, ⟨1, 51, none, 4⟩], [⟨101, 11, 2, 1, 15, 5, 75, .bulk_order, .pending, none, some 7⟩, ⟨103, 13, 2, 1, 40, 5, 200, .bulk_order, .pending, none, some 7⟩], [⟨7, 11, 100, .open, 0, 0⟩], []⟩ 200).1.vendors.find?
              (fun x => x.user_profile_id == (13 : Nat)) = some v)) ∧
      (∃ w', (process_bulk_windows ⟨[⟨11, "u11"⟩, ⟨13, "u13"⟩], [⟨11, 100, true, 0⟩, ⟨13, 100, true, 0⟩], [], [⟨1, 2, true, 1⟩], [⟨1, 1, some 10, 5⟩, ⟨1, 11, some 50, 9/2⟩, ⟨1, 51, none, 4⟩], [⟨101, 11, 2, 1, 15, 5, 75, .bulk_order, .pending, none, some 7⟩, ⟨103, 13, 2, 1, 40, 5, 200, .bulk_order, .pending, none, some 7⟩], [⟨7, 11, 100, .open, 0, 0⟩], []⟩ 200).1.windows.find? (fun x => x.id == (7 : Nat)) =
          some w' ∧ w'.status = .finalized) :=
  C1_bulk_settlement ⟨[⟨11, "u11"⟩, ⟨13, "u13"⟩], [⟨11, 100, true, 0⟩, ⟨13, 100, true, 0⟩], [], [⟨1, 2, true, 1⟩], [⟨1, 1, some 10, 5⟩, ⟨1, 11, some 50, 9/2⟩, ⟨1, 51, none, 4⟩], [⟨101, 11, 2, 1, 15, 5, 75, .bulk_order, .pending, none, some 7⟩, ⟨103, 13, 2, 1, 40, 5, 200, .bulk_order, .pending, none, some 7⟩], [⟨7, 11, 100, .open, 0, 0⟩], []⟩ 200 7 ⟨7, 11, 100, .open, 0, 0⟩
    (by decide) (by decide) (by decide) (by decide) (by decide) (by decide)
    (⟨103, 13, 2, 1, 40, 5, 200, OrderType.bulk_order, PaymentStatus.pending, none, some 7⟩ : Order) (by decide)

/-- C10: during settlement, an order whose buyer has no vendor profile row is
treated exactly like an insufficient-balance order: the settlement iteration
marks it `failed` and mutates no balance, its repriced `total_amount` is kept,
it is excluded from the window's `total_amount` (which sums only `paid`
orders), and it still counts toward `total_participants`. -/
theorem C10_missing_vendor_row (db : DB) (now wid : Nat) (w : BulkOrderWindow)
    (hsel : selectedWindowIds db now = [wid])
    (hw : db.windows.find? (fun x => x.id == wid) = some w)
    (hne : ordersOfWindow db wid ≠ [])
    (hidnd : (db.orders.map Order.id).Nodup)
    (hbnd : ((ordersOfWindow db wid).map Order.buyer_id).Nodup)
    (hfault : ∀ o ∈ ordersOfWindow db wid,
      (db.products.find? (fun pr => pr.id == o.product_id)).isSome ∧
      db.tiers.filter (fun t => t.product_id == o.product_id) ≠ [])
    (o : Order) (ho : o ∈ ordersOfWindow db wid)
    (hvnone : db.vendors.find? (fun x => x.user_profile_id == o.buyer_id) = none) :
    ∃ P, calculate_price_for_quantity
        (db.tiers.filter (fun t => t.product_id == o.product_id))
        (((ordersOfWindow db wid).filter (fun y => y.product_id == o.product_id)).map
          (fun y => y.quantity)).sum = some P ∧
      (∀ d : DB, d.vendors.find? (fun x => x.user_profile_id == o.buyer_id) = none →
        settlePayStatus d.vendors (P * (o.quantity : ℚ)) o.buyer_id = .failed ∧
        (settleOrder d P o).vendors = d.vendors) ∧
      (process_bulk_windows db now).1.orders.find? (fun o2 => o2.id == o.id) =
        some { o with price_per_unit := P, total_amount := P * (o.quantity : ℚ), payment_status := PaymentStatus.failed } ∧
      (process_bulk_windows db now).1.vendors.find?
        (fun x => x.user_profile_id == o.buyer_id) = none ∧
      (∃ w', (process_bulk_windows db now).1.windows.find? (fun x => x.id == wid) =
          some w' ∧
        w'.status = .finalized ∧
        w'.total_amount = (((ordersOfWindow (process_bulk_windows db now).1 wid).filter
          (fun o2 => o2.payment_status == PaymentStatus.paid)).map
            (fun o2 => o2.total_amount)).sum ∧
        (∀ o2 ∈ (ordersOfWindow (process_bulk_windows db now).1 wid).filter
            (fun o2 => o2.payment_status == PaymentStatus.paid), o2.id ≠ o.id) ∧
        w'.total_participants = (firstOccurrences
          ((ordersOfWindow (process_bulk_windows db now).1 wid).map
            (fun o2 => o2.buyer_id))).length ∧
        o.buyer_id ∈ (ordersOfWindow (process_bulk_windows db now).1 wid).map
          (fun o2 => o2.buyer_id)) := by
  obtain ⟨db2, hstep, hframe, hwnd, hper⟩ := processWindowStep_spec db wid hne hidnd hbnd hfault
  have hdb1 : (process_bulk_windows db now).1 = finalizeWindow db2 wid
      ((firstOccurrences ((ordersOfWindow db2 wid).map (fun o => o.buyer_id))).length)
      ((((ordersOfWindow db2 wid).filter
          (fun o => o.payment_status == PaymentStatus.paid)).map
        (fun o => o.total_amount)).sum) := by
    show ((selectedWindowIds db now).foldl _ (db, 0)).1 = _
    rw [hsel, List.foldl_cons, List.foldl_nil]
    dsimp only
    rw [hstep]
  obtain ⟨P, hcalc, h1, h2⟩ := hper o ho
  have hstatus : settlePayStatus db.vendors (P * (o.quantity : ℚ)) o.buyer_id =
      PaymentStatus.failed := by
    unfold settlePayStatus
    rw [hvnone]
  have h1' : db2.orders.find? (fun o2 => o2.id == o.id) =
      some { o with price_per_unit := P, total_amount := P * (o.quantity : ℚ), payment_status := PaymentStatus.failed } := by
    rw [h1]
    simp only [settleUpd, hstatus]
  have h2' : db2.vendors.find? (fun x => x.user_profile_id == o.buyer_id) = none := by
    rw [h2, hvnone]
  have hmemr : ({ o with price_per_unit := P, total_amount := P * (o.quantity : ℚ), payment_status := PaymentStatus.failed } : Order) ∈ db2.orders :=
    List.mem_of_find?_eq_some h1'
  have howin : (o.bulk_order_window_id == some wid) = true := (List.mem_filter.mp ho).2
  have hrwin : ({ o with price_per_unit := P, total_amount := P * (o.quantity : ℚ), payment_status := PaymentStatus.failed } : Order) ∈ ordersOfWindow db2 wid :=
    List.mem_filter.mpr ⟨hmemr, howin⟩
  have hid2 : (db2.orders.map Order.id).Nodup := by
    rw [ledgerFrame_orders_id hframe]
    exact hidnd
  refine ⟨P, hcalc, ?_, ?_, ?_, ?_⟩
  · intro d hd
    have hst : settlePayStatus d.vendors (P * (o.quantity : ℚ)) o.buyer_id =
        PaymentStatus.failed := by
      unfold settlePayStatus
      rw [hd]
    refine ⟨hst, ?_⟩
    rw [settleOrder_vendors_def, if_neg]
    rw [hst]
    simp
  · rw [hdb1, finalizeWindow_orders]
    exact h1'
  · rw [hdb1, finalizeWindow_vendors]
    exact h2'
  · rw [hdb1, finalizeWindow_windows]
    refine ⟨finalizeUpd
      ((firstOccurrences ((ordersOfWindow db2 wid).map (fun o => o.buyer_id))).length)
      ((((ordersOfWindow db2 wid).filter
          (fun o => o.payment_status == PaymentStatus.paid)).map
        (fun o => o.total_amount)).sum) w, ?_, ?_, ?_, ?_, ?_, ?_⟩
    · rw [hwnd, find?_updateFirst_self (p := fun x => x.id == wid)
        (f := finalizeUpd
          ((firstOccurrences ((ordersOfWindow db2 wid).map (fun o => o.buyer_id))).length)
          ((((ordersOfWindow db2 wid).filter
              (fun o => o.payment_status == PaymentStatus.paid)).map
            (fun o => o.total_amount)).sum)) (fun a ha => ha) db.windows, hw]
      rfl
    · rfl
    · rfl
    · intro o2 ho2 hoid
      have ho2w : o2 ∈ ordersOfWindow db2 wid := List.mem_of_mem_filter ho2
      have ho2p : (o2.payment_status == PaymentStatus.paid) = true :=
        (List.mem_filter.mp ho2).2
      have ho2m : o2 ∈ db2.orders := List.mem_of_mem_filter ho2w
      have : o2 = { o with price_per_unit := P, total_amount := P * (o.quantity : ℚ), payment_status := PaymentStatus.failed } :=
        eq_of_mem_of_nodup_key Order.id hid2 ho2m hmemr hoid
      rw [this] at ho2p
      simp at ho2p
    · rfl
    · exact List.mem_map_of_mem (fun o2 => o2.buyer_id) hrwin

/-- Witness for C10: buyer 13 has no vendor profile row; their order 103 in
window 7 is repriced and marked failed, no vendor row appears, and the window
finalizes counting buyer 13 among participants but not in total_amount. -/
theorem C10_missing_vendor_row_witness :
    ∃ P, calculate_price_for_quantity
        (DB.tiers ⟨[⟨11, "u11"⟩, ⟨13, "u13"⟩], [⟨11, 100, true, 0⟩], [], [⟨1, 2, true, 1⟩], [⟨1, 1, none, 5⟩], [⟨101, 11, 2, 1, 15, 5, 75, .bulk_order, .pending, none, some 7⟩, ⟨103, 13, 2, 1, 40, 5, 200, .bulk_order, .pending, none, some 7⟩], [⟨7, 11, 100, .open, 0, 0⟩], []⟩ |>.filter (fun t => t.product_id == (1 : Nat)))
        (((ordersOfWindow ⟨[⟨11, "u11"⟩, ⟨13, "u13"⟩], [⟨11, 100, true, 0⟩], [], [⟨1, 2, true, 1⟩], [⟨1, 1, none, 5⟩], [⟨101, 11, 2, 1, 15, 5, 75, .bulk_order, .pending, none, some 7⟩, ⟨103, 13, 2, 1, 40, 5, 200, .bulk_order, .pending, none, some 7⟩], [⟨7, 11, 100, .open, 0, 0⟩], []⟩ 7).filter (fun y => y.product_id == (1 : Nat))).map
          (fun y => y.quantity)).sum = some P ∧
      (∀ d : DB, d.vendors.find? (fun x => x.user_profile_id == (13 : Nat)) = none →
        settlePayStatus d.vendors (P * (((40 : Nat)) : ℚ)) 13 = .failed ∧
        (settleOrder d P (⟨103, 13, 2, 1, 40, 5, 200, OrderType.bulk_order, PaymentStatus.pending, none, some 7⟩ : Order)).vendors = d.vendors) ∧
      (process_bulk_windows ⟨[⟨11, "u11"⟩, ⟨13, "u13"⟩], [⟨11, 100, true, 0⟩], [], [⟨1, 2, true, 1⟩], [⟨1, 1, none, 5⟩], [⟨101, 11, 2, 1, 15, 5, 75, .bulk_order, .pending, none, some 7⟩, ⟨103, 13, 2, 1, 40, 5, 200, .bulk_order, .pending, none, some 7⟩], [⟨7, 11, 100, .open, 0, 0⟩], []⟩ 200).1.orders.find? (fun o2 => o2.id == (103 : Nat)) =
        some { (⟨103, 13, 2, 1, 40, 5, 200, OrderType.bulk_order, PaymentStatus.pending, none, some 7⟩ : Order) with price_per_unit := P, total_amount := P * (((40 : Nat)) : ℚ), payment_status := PaymentStatus.failed } ∧
      (process_bulk_windows ⟨[⟨11, "u11"⟩, ⟨13, "u13"⟩], [⟨11, 100, true, 0⟩], [], [⟨1, 2, true, 1⟩], [⟨1, 1, none, 5⟩], [⟨101, 11, 2, 1, 15, 5, 75, .bulk_order, .pending, none, some 7⟩, ⟨103, 13, 2, 1, 40, 5, 200, .bulk_order, .pending, none, some 7⟩], [⟨7, 11, 100, .open, 0, 0⟩], []⟩ 200).1.vendors.find?
        (fun x => x.user_profile_id == (13 : Nat)) = none ∧
      (∃ w', (process_bulk_windows ⟨[⟨11, "u11"⟩, ⟨13, "u13"⟩], [⟨11, 100, true, 0⟩], [], [⟨1, 2, true, 1⟩], [⟨1, 1, none, 5⟩], [⟨101, 11, 2, 1, 15, 5, 75, .bulk_order, .pending, none, some 7⟩, ⟨103, 13, 2, 1, 40, 5, 200, .bulk_order, .pending, none, some 7⟩], [⟨7, 11, 100, .open, 0, 0⟩], []⟩ 200).1.windows.find? (fun x => x.id == (7 : Nat)) =
          some w' ∧
        w'.status = .finalized ∧
        w'.total_amount = (((ordersOfWindow (process_bulk_windows ⟨[⟨11, "u11"⟩, ⟨13, "u13"⟩], [⟨11, 100, true, 0⟩], [], [⟨1, 2, true, 1⟩], [⟨1, 1, none, 5⟩], [⟨101, 11, 2, 1, 15, 5, 75, .bulk_order, .pending, none, some 7⟩, ⟨103, 13, 2, 1, 40, 5, 200, .bulk_order, .pending, none, some 7⟩], [⟨7, 11, 100, .open, 0, 0⟩], []⟩ 200).1 7).filter
          (fun o2 => o2.payment_status == PaymentStatus.paid)).map
            (fun o2 => o2.total_amount)).sum ∧
        (∀ o2 ∈ (ordersOfWindow (process_bulk_windows ⟨[⟨11, "u11"⟩, ⟨13, "u13"⟩], [⟨11, 100, true, 0⟩], [], [⟨1, 2, true, 1⟩], [⟨1, 1, none, 5⟩], [⟨101, 11, 2, 1, 15, 5, 75, .bulk_order, .pending, none, some 7⟩, ⟨103, 13, 2, 1, 40, 5, 200, .bulk_order, .pending, none, some 7⟩], [⟨7, 11, 100, .open, 0, 0⟩], []⟩ 200).1 7).filter
            (fun o2 => o2.payment_status == PaymentStatus.paid), o2.id ≠ (103 : Nat)) ∧
        w'.total_participants = (firstOccurrences
          ((ordersOfWindow (process_bulk_windows ⟨[⟨11, "u11"⟩, ⟨13, "u13"⟩], [⟨11, 100, true, 0⟩], [], [⟨1, 2, true, 1⟩], [⟨1, 1, none, 5⟩], [⟨101, 11, 2, 1, 15, 5, 75, .bulk_order, .pending, none, some 7⟩, ⟨103, 13, 2, 1, 40, 5, 200, .bulk_order, .pending, none, some 7⟩], [⟨7, 11, 100, .open, 0, 0⟩], []⟩ 200).1 7).map
            (fun o2 => o2.buyer_id))).length ∧
        (13 : Nat) ∈ (ordersOfWindow (process_bulk_windows ⟨[⟨11, "u11"⟩, ⟨13, "u13"⟩], [⟨11, 100, true, 0⟩], [], [⟨1, 2, true, 1⟩], [⟨1, 1, none, 5⟩], [⟨101, 11, 2, 1, 15, 5, 75, .bulk_order, .pending, none, some 7⟩, ⟨103, 13, 2, 1, 40, 5, 200, .bulk_order, .pending, none, some 7⟩], [⟨7, 11, 100, .open, 0, 0⟩], []⟩ 200).1 7).map
          (fun o2 => o2.buyer_id)) :=
  C10_missing_vendor_row ⟨[⟨11, "u11"⟩, ⟨13, "u13"⟩], [⟨11, 100, true, 0⟩], [], [⟨1, 2, true, 1⟩], [⟨1, 1, none, 5⟩], [⟨101, 11, 2, 1, 15, 5, 75, .bulk_order, .pending, none, some 7⟩, ⟨103, 13, 2, 1, 40, 5, 200, .bulk_order, .pending, none, some 7⟩], [⟨7, 11, 100, .open, 0, 0⟩], []⟩ 200 7 ⟨7, 11, 100, .open, 0, 0⟩
    (by decide) (by decide) (by decide) (by decide) (by decide) (by decide)
    (⟨103, 13, 2, 1, 40, 5, 200, OrderType.bulk_order, PaymentStatus.pending, none, some 7⟩ : Order) (by decide) (by decide)

/-! ## C5: idempotency of the sweep over finalized windows -/

/-- Under fault-freedom (every order's product row present and its tier list
non-empty), `processWindowStep` always rewrites the selected window's row to
`finalized` via `finalizeUpd` — in both the empty-window branch and the
settled branch. -/
theorem processWindowStep_finalizes (d : DB) (wid : Nat)
    (hfd : ∀ o ∈ d.orders,
      (d.products.find? (fun pr => pr.id == o.product_id)).isSome ∧
      d.tiers.filter (fun t => t.product_id == o.product_id) ≠ []) :
    ∃ tp ta, (processWindowStep d wid).1.windows =
      updateFirst (fun w => w.id == wid) (finalizeUpd tp ta) d.windows := by
  unfold processWindowStep
  by_cases he : (ordersOfWindow d wid).isEmpty
  · simp only [he, if_pos]
    exact ⟨0, 0, rfl⟩
  · simp only [he, if_neg, Bool.false_eq_true, not_false_iff]
    have hok := processGroups_ok
      ((firstOccurrences ((ordersOfWindow d wid).map (fun o => o.product_id))).map
        (fun p => (p, (ordersOfWindow d wid).filter (fun o => o.product_id == p)))) d
      (by
        intro pg hpg
        obtain ⟨p, hp, rfl⟩ := List.mem_map.mp hpg
        obtain ⟨y, hy, hyp⟩ := List.mem_map.mp (mem_firstOccurrences.mp hp)
        exact hyp ▸ hfd y (List.mem_of_mem_filter hy))
    cases hpg : processGroups d
        ((firstOccurrences ((ordersOfWindow d wid).map (fun o => o.product_id))).map
          (fun p => (p, (ordersOfWindow d wid).filter (fun o => o.product_id == p)))) with
    | mk db2 ok =>
      rw [hpg] at hok
      subst hok
      have h := processGroups_ledgerFrame
        ((firstOccurrences ((ordersOfWindow d wid).map (fun o => o.product_id))).map
          (fun p => (p, (ordersOfWindow d wid).filter (fun o => o.product_id == p)))) d
      rw [hpg] at h
      refine ⟨(firstOccurrences ((ordersOfWindow db2 wid).map (fun o => o.buyer_id))).length,
        (((ordersOfWindow db2 wid).filter
            (fun o => o.payment_status == PaymentStatus.paid)).map
          (fun o => o.total_amount)).sum, ?_⟩
      show (finalizeWindow db2 wid _ _).windows = _
      unfold finalizeWindow
      rw [h.2]

/-- Any member of a finalize-rewritten window list is either a `finalized`
row or an untouched original row with a different id (given unique ids). -/
theorem mem_finalize_updateFirst {wid tp : Nat} {ta : ℚ} :
    ∀ {ws : List BulkOrderWindow}, ((ws.map BulkOrderWindow.id).Nodup) →
      ∀ {b}, b ∈ updateFirst (fun w => w.id == wid) (finalizeUpd tp ta) ws →
        b.status = WindowStatus.finalized ∨ (b ∈ ws ∧ b.id ≠ wid)
  | [], _, b, hb => by simp [updateFirst] at hb
  | x :: xs, hnd, b, hb => by
    rw [List.map_cons, List.nodup_cons] at hnd
    by_cases hpx : (x.id == wid) = true
    · simp only [updateFirst, if_pos hpx] at hb
      rcases List.mem_cons.mp hb with rfl | h
      · exact Or.inl rfl
      · refine Or.inr ⟨List.mem_cons_of_mem _ h, ?_⟩
        intro hbid
        have hxid : x.id = wid := by simpa using hpx
        have hmm : b.id ∈ xs.map BulkOrderWindow.id := List.mem_map_of_mem _ h
        rw [hbid, ← hxid] at hmm
        exact hnd.1 hmm
    · simp only [updateFirst, if_neg hpx] at hb
      rcases List.mem_cons.mp hb with rfl | h
      · exact Or.inr ⟨List.mem_cons_self _ _, by simpa using hpx⟩
      · rcases mem_finalize_updateFirst hnd.2 h with h' | ⟨hm, hne⟩
        · exact Or.inl h'
        · exact Or.inr ⟨List.mem_cons_of_mem _ hm, hne⟩

/-- A settlement phase preserves the list of order product ids. -/
theorem ledgerFrame_orders_product {db db2 : DB} (h : LedgerFrame db db2) :
    db2.orders.map (fun o => o.product_id) = db.orders.map (fun o => o.product_id) := by
  have h1 := h.2.2.2.2.2.1
    (fun o => (o.id, o.buyer_id, o.product_id, o.quantity, o.bulk_order_window_id))
    (fun _ _ _ _ => rfl)
  have h2 := congrArg (List.map (fun t : Nat × Nat × Nat × Nat × Option Nat => t.2.2.1)) h1
  rw [List.map_map, List.map_map] at h2
  exact h2

/-- Invariant of the sweep's fold: the (id, end-time) map of the window list
is preserved, every window row is an original row or `finalized`, and every
still-open expired row's id is among the window ids not yet processed; at the
end of the fold no open expired row remains. -/
theorem sweep_fold_finalizes (db : DB) (now : Nat)
    (hnd : (db.windows.map BulkOrderWindow.id).Nodup)
    (hfault : ∀ o ∈ db.orders,
      (db.products.find? (fun pr => pr.id == o.product_id)).isSome ∧
      db.tiers.filter (fun t => t.product_id == o.product_id) ≠ []) :
    ∀ (wids : List Nat) (d : DB) (c : Nat),
      d.products = db.products →
      d.tiers = db.tiers →
      d.orders.map (fun o => o.product_id) = db.orders.map (fun o => o.product_id) →
      d.windows.map (fun w => (w.id, w.window_end_time)) =
        db.windows.map (fun w => (w.id, w.window_end_time)) →
      (∀ x ∈ d.windows, x ∈ db.windows ∨ x.status = WindowStatus.finalized) →
      (∀ x ∈ d.windows, x.status = WindowStatus.open → x.window_end_time < now →
        x.id ∈ wids) →
      ((wids.foldl (fun acc wid =>
          let r := processWindowStep acc.1 wid
          (r.1, acc.2 + if r.2 then 1 else 0)) (d, c)).1.windows.map
            (fun w => (w.id, w.window_end_time)) =
        db.windows.map (fun w => (w.id, w.window_end_time))) ∧
      (∀ x ∈ (wids.foldl (fun acc wid =>
          let r := processWindowStep acc.1 wid
          (r.1, acc.2 + if r.2 then 1 else 0)) (d, c)).1.windows,
        x ∈ db.windows ∨ x.status = WindowStatus.finalized) ∧
      (∀ x ∈ (wids.foldl (fun acc wid =>
          let r := processWindowStep acc.1 wid
          (r.1, acc.2 + if r.2 then 1 else 0)) (d, c)).1.windows,
        x.status = WindowStatus.open → x.window_end_time < now → False)
  | [], d, c, hp, ht, hom, hwm, hmem, hopen => by
    refine ⟨hwm, hmem, ?_⟩
    intro x hx ho he
    exact absurd (hopen x hx ho he) (List.not_mem_nil _)
  | wid :: rest, d, c, hp, ht, hom, hwm, hmem, hopen => by
    rw [List.foldl_cons]
    dsimp only
    have hframe := processWindowStep_ledgerFrame d wid
    have hfd : ∀ o ∈ d.orders,
        (d.products.find? (fun pr => pr.id == o.product_id)).isSome ∧
        d.tiers.filter (fun t => t.product_id == o.product_id) ≠ [] := by
      intro o ho
      have hpm : o.product_id ∈ db.orders.map (fun o2 => o2.product_id) := by
        rw [← hom]
        exact List.mem_map_of_mem _ ho
      obtain ⟨o2, ho2, hpe⟩ := List.mem_map.mp hpm
      rw [hp, ht, ← hpe]
      exact hfault o2 ho2
    obtain ⟨tp, ta, hws⟩ := processWindowStep_finalizes d wid hfd
    have hdnd : (d.windows.map BulkOrderWindow.id).Nodup := by
      have h2 := congrArg (List.map Prod.fst) hwm
      rw [List.map_map, List.map_map] at h2
      have h3 : d.windows.map BulkOrderWindow.id = db.windows.map BulkOrderWindow.id := h2
      rw [h3]
      exact hnd
    have hp' : (processWindowStep d wid).1.products = db.products :=
      hframe.2.2.1.trans hp
    have ht' : (processWindowStep d wid).1.tiers = db.tiers :=
      hframe.2.2.2.1.trans ht
    have hom' : (processWindowStep d wid).1.orders.map (fun o => o.product_id) =
        db.orders.map (fun o => o.product_id) :=
      (ledgerFrame_orders_product hframe).trans hom
    have hwm' : (processWindowStep d wid).1.windows.map
        (fun w => (w.id, w.window_end_time)) =
        db.windows.map (fun w => (w.id, w.window_end_time)) := by
      rw [hws, map_updateFirst (p := fun w => w.id == wid) (f := finalizeUpd tp ta)
        (fun w : BulkOrderWindow => (w.id, w.window_end_time)) (fun a => rfl)]
      exact hwm
    have hmem' : ∀ x ∈ (processWindowStep d wid).1.windows,
        x ∈ db.windows ∨ x.status = WindowStatus.finalized := by
      intro x hx
      rw [hws] at hx
      rcases mem_finalize_updateFirst hdnd hx with hf | ⟨hm, _⟩
      · exact Or.inr hf
      · exact hmem x hm
    have hopen' : ∀ x ∈ (processWindowStep d wid).1.windows,
        x.status = WindowStatus.open → x.window_end_time < now → x.id ∈ rest := by
      intro x hx ho he
      rw [hws] at hx
      rcases mem_finalize_updateFirst hdnd hx with hf | ⟨hm, hne⟩
      · rw [ho] at hf
        exact absurd hf (by decide)
      · rcases List.mem_cons.mp (hopen x hm ho he) with h' | h'
        · exact absurd h' hne
        · exact h'
    exact sweep_fold_finalizes db now hnd hfault rest (processWindowStep d wid).1
      (c + if (processWindowStep d wid).2 then 1 else 0) hp' ht' hom' hwm' hmem' hopen'

/-- C5: the sweep is idempotent over finalized windows.  With unique window
ids and no faults (every order's product row present, non-empty tier lists),
one sweep finalizes every selected expired open window; a second sweep with
no intervening state change selects no windows (only `status == "open"`
windows are picked up), performs no order rewrite, no debit and no window
mutation, and returns the store unchanged with `processed_count = 0`. -/
theorem C5_sweep_idempotent (db : DB) (now : Nat)
    (hnd : (db.windows.map BulkOrderWindow.id).Nodup)
    (hfault : ∀ o ∈ db.orders,
      (db.products.find? (fun pr => pr.id == o.product_id)).isSome ∧
      db.tiers.filter (fun t => t.product_id == o.product_id) ≠ []) :
    (∀ wid ∈ selectedWindowIds db now,
      ∃ w', (process_bulk_windows db now).1.windows.find? (fun x => x.id == wid) =
          some w' ∧ w'.status = WindowStatus.finalized) ∧
    selectedWindowIds (process_bulk_windows db now).1 now = [] ∧
    process_bulk_windows (process_bulk_windows db now).1 now =
      ((process_bulk_windows db now).1, 0) := by
  have hinit : ∀ x ∈ db.windows, x.status = WindowStatus.open →
      x.window_end_time < now → x.id ∈ selectedWindowIds db now := by
    intro x hx ho he
    exact List.mem_map_of_mem _ (List.mem_filter.mpr ⟨hx, by simp [ho, he]⟩)
  obtain ⟨hwm1, hmem1, hopen1⟩ := sweep_fold_finalizes db now hnd hfault
    (selectedWindowIds db now) db 0 rfl rfl rfl rfl (fun x hx => Or.inl hx) hinit
  have hpb : ((selectedWindowIds db now).foldl (fun acc wid =>
      let r := processWindowStep acc.1 wid
      (r.1, acc.2 + if r.2 then 1 else 0)) (db, 0)).1 = (process_bulk_windows db now).1 := rfl
  rw [hpb] at hwm1 hmem1 hopen1
  have hsel1 : selectedWindowIds (process_bulk_windows db now).1 now = [] := by
    unfold selectedWindowIds
    have hfil : (process_bulk_windows db now).1.windows.filter
        (fun w => w.status == WindowStatus.open && w.window_end_time < now) = [] := by
      rw [List.filter_eq_nil_iff]
      intro a ha
      simp only [Bool.and_eq_true, beq_iff_eq, decide_eq_true_eq, not_and]
      intro hs hlt
      exact absurd hlt (fun hlt2 => hopen1 a ha hs hlt2)
    rw [hfil, List.map_nil]
  refine ⟨?_, hsel1, ?_⟩
  · intro wid hwid
    obtain ⟨w, hwf, hwid2⟩ := List.mem_map.mp hwid
    have hwmem : w ∈ db.windows := List.mem_of_mem_filter hwf
    have hpred := (List.mem_filter.mp hwf).2
    simp only [Bool.and_eq_true, beq_iff_eq, decide_eq_true_eq] at hpred
    obtain ⟨hopenw, hltw⟩ := hpred
    have hpair : (w.id, w.window_end_time) ∈
        (process_bulk_windows db now).1.windows.map
          (fun x => (x.id, x.window_end_time)) := by
      rw [hwm1]
      exact List.mem_map_of_mem _ hwmem
    obtain ⟨w2, hw2mem, hw2pair⟩ := List.mem_map.mp hpair
    have hw2id : w2.id = w.id := congrArg Prod.fst hw2pair
    cases hf : (process_bulk_windows db now).1.windows.find? (fun x => x.id == wid) with
    | none =>
      exact absurd (by simp [hw2id, hwid2] : (fun x => x.id == wid) w2 = true)
        (List.find?_eq_none.mp hf w2 hw2mem)
    | some w3 =>
      have hw3mem := List.mem_of_find?_eq_some hf
      have hw3id : w3.id = wid := by simpa using List.find?_some hf
      refine ⟨w3, rfl, ?_⟩
      rcases hmem1 w3 hw3mem with hmm | hfin
      · have hw3w : w3 = w :=
          eq_of_mem_of_nodup_key BulkOrderWindow.id hnd hmm hwmem
            (by rw [hw3id, hwid2])
        exact absurd (hw3w ▸ hltw) (fun hlt2 => hopen1 w3 hw3mem (hw3w ▸ hopenw) hlt2)
      · exact hfin
  · show (selectedWindowIds (process_bulk_windows db now).1 now).foldl _ _ = _
    rw [hsel1, List.foldl_nil]

/-- Witness for C5: a single expired open window (id 7) with no orders; the
first sweep finalizes it, the second sweep selects nothing and is a no-op. -/
theorem C5_sweep_idempotent_witness :
    (∀ wid ∈ selectedWindowIds ⟨[], [], [], [], [], [], [⟨7, 11, 100, .open, 0, 0⟩], []⟩ 200,
      ∃ w', (process_bulk_windows ⟨[], [], [], [], [], [], [⟨7, 11, 100, .open, 0, 0⟩], []⟩ 200).1.windows.find? (fun x => x.id == wid) =
          some w' ∧ w'.status = WindowStatus.finalized) ∧
    selectedWindowIds (process_bulk_windows ⟨[], [], [], [], [], [], [⟨7, 11, 100, .open, 0, 0⟩], []⟩ 200).1 200 = [] ∧
    process_bulk_windows (process_bulk_windows ⟨[], [], [], [], [], [], [⟨7, 11, 100, .open, 0, 0⟩], []⟩ 200).1 200 =
      ((process_bulk_windows ⟨[], [], [], [], [], [], [⟨7, 11, 100, .open, 0, 0⟩], []⟩ 200).1, 0) :=
  C5_sweep_idempotent ⟨[], [], [], [], [], [], [⟨7, 11, 100, .open, 0, 0⟩], []⟩ 200
    (by decide) (by decide)

end Buildathon
